import Mathlib

/-!
Verification of the AIDM deterministic rules/state engine.

Shallow embedding of the Python sources (`app/engine/combat.py`,
`app/engine/story.py`, `app/engine/ai_dm.py`, `app/engine/fight_agent.py`)
into Lean.  Python strings are modelled as `List Char`, Python ints as `Int`
(or `Nat` where the source guarantees non-negativity), dicts as association
lists, raised exceptions as `Except`/`Option`, and the process-global random
source (`random.Random` / `random.SystemRandom`) as an explicit stream of
naturals threaded through each call.
-/

namespace AIDM

/-! ## Random source

`random.randint(lo, hi)` returns a value in `[lo, hi]` and raises
`ValueError` when the range is empty (`hi < lo`).  The entropy behind the
call (Mersenne twister or OS entropy) is modelled as an infinite stream of
naturals together with a cursor; a draw reduces the next stream element into
the requested range and advances the cursor. -/

structure Rng where
  stream : Nat → Nat
  pos : Nat

def randint (lo hi : Nat) (g : Rng) : Option (Nat × Rng) :=
  if lo ≤ hi then
    some (lo + g.stream g.pos % (hi + 1 - lo), ⟨g.stream, g.pos + 1⟩)
  else
    none

/-! ## Character helpers

`pyIsSpace` models the whitespace class used by Python's `str.strip` and the
regex `\s` on the ASCII range. -/

def pyIsSpace (c : Char) : Bool :=
  c = ' ' || c = '\t' || c = '\n' || c = '\x0d' || c = '\x0b' || c = '\x0c'

def digitVal (c : Char) : Nat := c.toNat - 48

/-- Value of a run of decimal digits, mirroring Python `int(str)`. -/
def digitsToNat (ds : List Char) : Nat :=
  ds.foldl (fun a c => 10 * a + digitVal c) 0

def digitChar (n : Nat) : Char := Char.ofNat (48 + n)

/-- Decimal digits of a natural number, mirroring Python `str(int)` for
non-negative values (`natDigits 0 = ['0']`).  The fuel argument makes the
recursion structural; `n` itself always suffices as fuel since `n / 10 < n`
for `n ≥ 10`. -/
def natDigitsAux : Nat → Nat → List Char
  | 0, _ => []
  | fuel + 1, n =>
    if n < 10 then [digitChar n]
    else natDigitsAux fuel (n / 10) ++ [digitChar (n % 10)]

def natDigits (n : Nat) : List Char := natDigitsAux (n + 1) n

/-- Python `str(int)`, including the sign for negatives. -/
def pyIntStr (i : Int) : List Char :=
  if i < 0 then '-' :: natDigits i.natAbs else natDigits i.natAbs

/-- Python `str.strip()` restricted to the modelled whitespace set. -/
def pyStrip (s : List Char) : List Char :=
  ((s.dropWhile pyIsSpace).reverse.dropWhile pyIsSpace).reverse

/-- One pass of `re.sub(r"\s+", "+", ·)`: each maximal whitespace run becomes
a single `'+'`.  The flag records whether the previous character was part of
a whitespace run that already emitted its `'+'`. -/
def squashSpaces : Bool → List Char → List Char
  | _, [] => []
  | prevSpace, c :: cs =>
    if pyIsSpace c then
      if prevSpace then squashSpaces true cs
      else '+' :: squashSpaces true cs
    else c :: squashSpaces false cs

/-- `re.sub(r"\s+", "+", expr.strip())` from `roll_dice`. -/
def normalizeExpr (s : List Char) : List Char :=
  squashSpaces false (pyStrip s)

/-! ## Dice term scanner

Embedding of `DICE_TERM_RE.finditer` over the normalized expression.  The
regex is `([+-]?)\s*((\d*)[dD](\d+)|(\d+))`; after normalization no
whitespace remains, so the `\s*` is vacuous.  Because the `num` group only
matches digits and `[dD]` is not a digit, greedy matching with backtracking
is equivalent to: take the whole leading digit run, then require a `d`/`D`
and a non-empty digit run for `sides`; otherwise fall back to the flat
alternative on the same digit run.  `finditer` retries at the next character
after a failed match. -/

inductive MatchBody where
  | dice (num : Option Nat) (sides : Nat)
  | flat (n : Nat)
deriving DecidableEq, Repr

def matchSign : List Char → Option Char × List Char
  | [] => (none, [])
  | c :: cs => if c = '+' ∨ c = '-' then (some c, cs) else (none, c :: cs)

def matchTermAt (s : List Char) : Option (Option Char × MatchBody × List Char) :=
  let sgn := (matchSign s).1
  let r1 := (matchSign s).2
  let ds := r1.takeWhile Char.isDigit
  let r2 := r1.dropWhile Char.isDigit
  match r2 with
  | c :: cs =>
    if c = 'd' ∨ c = 'D' then
      let ss := cs.takeWhile Char.isDigit
      if ss.isEmpty then
        if ds.isEmpty then none
        else some (sgn, .flat (digitsToNat ds), r2)
      else
        some (sgn, .dice (if ds.isEmpty then none else some (digitsToNat ds)) (digitsToNat ss),
          cs.dropWhile Char.isDigit)
    else
      if ds.isEmpty then none else some (sgn, .flat (digitsToNat ds), r2)
  | [] =>
    if ds.isEmpty then none else some (sgn, .flat (digitsToNat ds), [])

/-- The scan loop of `finditer`: emit the match at the current position and
continue after it, or skip one character and retry.  Each step consumes at
least one character, so `s.length + 1` fuel always suffices. -/
def findTermsAux : Nat → List Char → List (Option Char × MatchBody)
  | 0, _ => []
  | fuel + 1, s =>
    match matchTermAt s with
    | some (sgn, b, rest) => (sgn, b) :: findTermsAux fuel rest
    | none =>
      match s with
      | [] => []
      | _ :: cs => findTermsAux fuel cs

def findTerms (s : List Char) : List (Option Char × MatchBody) :=
  findTermsAux (s.length + 1) s

/-! ## Roll evaluation

`roll_dice` from `app/engine/combat.py`.  Errors raised by the Python code
are split into the two `ValueError`s of the parser (`emptyExpression`,
`noTermsParsed`), the `ValueError` raised by `randint` on an empty range
(`badRandRange`, reachable via a `d0` term), and the `KeyError`/`IndexError`
family raised by subscripting (`keyError`, used by `resolve_attack` when it
reads `hit_roll['terms'][0]['rolls'][0]`). -/

inductive PyError where
  | emptyExpression
  | noTermsParsed
  | badRandRange
  | keyError
  | indexError
deriving DecidableEq, Repr

/-- One evaluated term of a roll, mirroring the per-term dicts built by
`roll_dice` (`sign`, `flat`/`num`+`sides`+`rolls`, `subtotal`). -/
inductive TermResult where
  | flat (signStr : Char) (value : Nat) (subtotal : Int)
  | dice (signStr : Char) (num : Nat) (sides : Nat) (rolls : List Nat) (subtotal : Int)
deriving DecidableEq, Repr

def TermResult.subtotal : TermResult → Int
  | .flat _ _ s => s
  | .dice _ _ _ _ s => s

structure RollResult where
  expression : List Char
  normalized : List Char
  total : Int
  terms : List TermResult
deriving DecidableEq, Repr

/-- The list comprehension `[rng.randint(1, sides) for _ in range(num)]`. -/
def rollN (num sides : Nat) (g : Rng) : Option (List Nat × Rng) :=
  match num with
  | 0 => some ([], g)
  | n + 1 =>
    match randint 1 sides g with
    | none => none
    | some (r, g1) =>
      match rollN n sides g1 with
      | none => none
      | some (rs, g2) => some (r :: rs, g2)

/-- The body of the `for m in DICE_TERM_RE.finditer(normalized)` loop:
accumulate term results and the running total, threading the random source.
`none` models the `ValueError` raised by `randint` on a `d0` term. -/
def rollTerms : List (Option Char × MatchBody) → Rng → Option (List TermResult × Int × Rng)
  | [], g => some ([], 0, g)
  | (sgnGroup, body) :: ms, g =>
    let signStr := sgnGroup.getD '+'
    let sign : Int := if signStr = '-' then -1 else 1
    match body with
    | .flat n =>
      let subtotal := sign * (n : Int)
      match rollTerms ms g with
      | none => none
      | some (ts, total, g1) => some (.flat signStr n subtotal :: ts, subtotal + total, g1)
    | .dice numGroup sides =>
      let num := numGroup.getD 1
      match rollN num sides g with
      | none => none
      | some (rolls, g1) =>
        let subtotal := sign * ((rolls.sum : Nat) : Int)
        match rollTerms ms g1 with
        | none => none
        | some (ts, total, g2) =>
          some (.dice signStr num sides rolls subtotal :: ts, subtotal + total, g2)

/-- `roll_dice(expr)` with the random source passed explicitly. -/
def roll_dice (expr : List Char) (g : Rng) : Except PyError (RollResult × Rng) :=
  let normalized := normalizeExpr expr
  if normalized.isEmpty then .error .emptyExpression
  else
    match rollTerms (findTerms normalized) g with
    | none => .error .badRandRange
    | some (terms, total, g1) =>
      if terms.isEmpty then .error .noTermsParsed
      else .ok ({ expression := expr, normalized := normalized, total := total, terms := terms }, g1)

/-! ## Combat resolver

`resolve_attack` from `app/engine/combat.py`.  The log lines are kept as a
list of strings built exactly as the source builds `log_parts`; the returned
`log` field is their `"\n"`-join. -/

structure AttackResult where
  is_hit : Bool
  damage_dealt : Int
  log : List Char
deriving DecidableEq, Repr

def joinNl : List (List Char) → List Char
  | [] => []
  | [l] => l
  | l :: ls => l ++ '\n' :: joinNl ls

/-- `hit_roll['terms'][0]['rolls'][0]`: the first roll of the first term.
Subscripting a flat term's missing `rolls` key or an empty list raises. -/
def firstRollOf (r : RollResult) : Except PyError Nat :=
  match r.terms with
  | [] => .error .indexError
  | .flat _ _ _ :: _ => .error .keyError
  | .dice _ _ _ rolls _ :: _ =>
    match rolls with
    | [] => .error .indexError
    | v :: _ => .ok v

/-- Log line: d20 check annotation. -/
def hitLogLine (d20_val : Nat) (attack_bonus : Int) (total_hit : Int) (target_ac : Int)
    (hit_status : List Char) : List Char :=
  "🎲 命中检定: 1d20(".toList ++ natDigits d20_val ++ ") + ".toList ++ pyIntStr attack_bonus
    ++ " = **".toList ++ pyIntStr total_hit ++ "** vs AC ".toList ++ pyIntStr target_ac
    ++ " -> **".toList ++ hit_status ++ "**".toList

def attackLogLine (attacker_name attack_name target_name : List Char) : List Char :=
  "⚔️ **".toList ++ attacker_name ++ "** 使用 *".toList ++ attack_name
    ++ "* 攻击 **".toList ++ target_name ++ "**。".toList

def critDamageLogLine (normalized : List Char) (damage_total : Int) : List Char :=
  "💥 伤害 (暴击 x2): ".toList ++ normalized ++ " = **".toList ++ pyIntStr damage_total ++ "**".toList

def plainDamageLogLine (normalized : List Char) (damage_total : Int) : List Char :=
  "🩸 伤害: ".toList ++ normalized ++ " = **".toList ++ pyIntStr damage_total ++ "**".toList

def missLogLine : List Char := "🛡️ 攻击被格挡或闪避。".toList

/-- `resolve_attack(attacker_name, attack_name, attack_bonus, target_name,
target_ac, damage_dice)`, with the process RNG made explicit. -/
def resolve_attack (attacker_name attack_name : List Char) (attack_bonus : Int)
    (target_name : List Char) (target_ac : Int) (damage_dice : List Char)
    (g : Rng) : Except PyError (AttackResult × Rng) :=
  match roll_dice ("1d20+".toList ++ pyIntStr attack_bonus) g with
  | .error e => .error e
  | .ok (hit_roll, g1) =>
    let total_hit := hit_roll.total
    match firstRollOf hit_roll with
    | .error e => .error e
    | .ok d20_val =>
      let is_crit := d20_val = 20
      let is_fumble := d20_val = 1
      let is_hit : Bool :=
        if is_crit then true
        else if is_fumble then false
        else total_hit ≥ target_ac
      let hit_status : List Char :=
        if is_crit then "暴击 (CRITICAL HIT)!".toList
        else if is_hit then "命中 (HIT)".toList
        else "未命中 (MISS)".toList
      let log1 := attackLogLine attacker_name attack_name target_name
      let log2 := hitLogLine d20_val attack_bonus total_hit target_ac hit_status
      if is_hit then
        match roll_dice damage_dice g1 with
        | .error e => .error e
        | .ok (dmg_roll, g2) =>
          let damage_total := dmg_roll.total
          if is_crit then
            let damage_total := damage_total * 2
            let log3 := critDamageLogLine dmg_roll.normalized damage_total
            .ok ({ is_hit := true, damage_dealt := damage_total,
                   log := joinNl [log1, log2, log3] }, g2)
          else
            let log3 := plainDamageLogLine dmg_roll.normalized damage_total
            .ok ({ is_hit := true, damage_dealt := damage_total,
                   log := joinNl [log1, log2, log3] }, g2)
      else
        .ok ({ is_hit := false, damage_dealt := 0,
               log := joinNl [log1, log2, missLogLine] }, g1)

/-! ## Actor ledger

The combat-state store of `app/engine/combat.py` (`upsert_actor`,
`apply_damage`, `heal_actor`, …).  The JSON file is a dict of actors keyed by
id; it is modelled as an association list with Python-dict semantics
(assignment replaces in place, otherwise appends).  The free-form `extra`
payload is carried as an opaque field.  An absent actor makes the operations
return the `{"error": ...}` dict, modelled as `none` for the summary with the
state unchanged. -/

def alistLookup {α : Type} : List (List Char × α) → List Char → Option α
  | [], _ => none
  | (k', v) :: rest, k => if k' = k then some v else alistLookup rest k

def alistInsert {α : Type} : List (List Char × α) → List Char → α → List (List Char × α)
  | [], k, v => [(k, v)]
  | (k', v') :: rest, k, v =>
    if k' = k then (k, v) :: rest else (k', v') :: alistInsert rest k v

def alistContains {α : Type} (m : List (List Char × α)) (k : List Char) : Bool :=
  (alistLookup m k).isSome

structure Actor where
  id : List Char
  name : List Char
  max_hp : Int
  hp : Int
  temp_hp : Int
  armor_class : Option Int
  conditions : List (List Char)
  extra : List (List Char × List Char)
deriving DecidableEq, Repr

def CombatState := List (List Char × Actor)

def upsert_actor (st : CombatState) (actor_id name : List Char) (max_hp : Int)
    (armor_class : Option Int) (extra : Option (List (List Char × List Char))) :
    CombatState × Actor :=
  let prev := alistLookup st actor_id
  let actor : Actor :=
    { id := actor_id
      name := name
      max_hp := max_hp
      hp := match prev with | some a => a.hp | none => max_hp
      temp_hp := match prev with | some a => a.temp_hp | none => 0
      armor_class := armor_class
      conditions := match prev with | some a => a.conditions | none => []
      extra := match extra with
        | some e => e
        | none => match prev with | some a => a.extra | none => [] }
  (alistInsert st actor_id actor, actor)

structure DamageSummary where
  actor_id : List Char
  name : List Char
  damage : Int
  before_hp : Int
  before_temp : Int
  after_hp : Int
  after_temp : Int
deriving DecidableEq, Repr

/-- `apply_damage(actor_id, amount)`: clamp the amount at 0, soak with temp
HP first, then reduce base HP with floor 0. -/
def apply_damage (st : CombatState) (actor_id : List Char) (amount0 : Int) :
    CombatState × Option DamageSummary :=
  match alistLookup st actor_id with
  | none => (st, none)
  | some actor =>
    let amount := max 0 amount0
    let before_hp := actor.hp
    let before_temp := actor.temp_hp
    let step1 :=
      if actor.temp_hp > 0 ∧ amount > 0 then
        let used := min actor.temp_hp amount
        ({ actor with temp_hp := actor.temp_hp - used }, amount - used)
      else (actor, amount)
    let actor1 := step1.1
    let amount1 := step1.2
    let actor2 :=
      if amount1 > 0 then { actor1 with hp := max 0 (actor1.hp - amount1) } else actor1
    (alistInsert st actor_id actor2,
      some { actor_id := actor_id, name := actor.name, damage := amount1,
             before_hp := before_hp, before_temp := before_temp,
             after_hp := actor2.hp, after_temp := actor2.temp_hp })

structure HealSummary where
  actor_id : List Char
  name : List Char
  heal : Int
  before_hp : Int
  after_hp : Int
  max_hp : Int
deriving DecidableEq, Repr

/-- `heal_actor(actor_id, amount, allow_overheal)`: clamp the amount at 0,
add to HP, and cap at `max_hp` unless over-heal is allowed. -/
def heal_actor (st : CombatState) (actor_id : List Char) (amount0 : Int)
    (allow_overheal : Bool) : CombatState × Option HealSummary :=
  match alistLookup st actor_id with
  | none => (st, none)
  | some actor =>
    let amount := max 0 amount0
    let before_hp := actor.hp
    let max_hp := actor.max_hp
    let new_hp0 := before_hp + amount
    let new_hp := if ¬allow_overheal then min new_hp0 max_hp else new_hp0
    (alistInsert st actor_id { actor with hp := new_hp },
      some { actor_id := actor_id, name := actor.name, heal := amount,
             before_hp := before_hp, after_hp := new_hp, max_hp := max_hp })

/-! ## Story graph

`app/engine/story.py`.  Scene records arrive as loosely typed dicts; they are
modelled as records of optional fields, where `none` for a required field
(`id`, an entity's `name`, an interaction's `trigger`, a loot's `item`, an
edge's `to`) triggers the `KeyError` that `data["…"]` raises, and `none` for
an optional field selects the `.get` default. -/

structure EnvironmentRecord where
  light : Option (List Char)
  terrain : Option (List Char)
  sound : Option (List Char)
  notes : Option (List Char)
deriving DecidableEq, Repr

structure EntityRecord where
  name : Option (List Char)
  etype : Option (List Char)
  ref_slug : Option (List Char)
  count : Option Int
  state : Option (List Char)
  disposition : Option (List Char)
deriving DecidableEq, Repr

structure InteractionRecord where
  trigger : Option (List Char)
  mechanic : Option (List Char)
  success : Option (List Char)
  failure : Option (List Char)
deriving DecidableEq, Repr

structure LootRecord where
  item : Option (List Char)
  quantity : Option Int
  description : Option (List Char)
deriving DecidableEq, Repr

structure EdgeRecord where
  toId : Option (List Char)
  weight : Option Int
  label : Option (List Char)
  condition : Option (List Char)
deriving DecidableEq, Repr

structure SceneRecord where
  id : Option (List Char)
  title : Option (List Char)
  stype : Option (List Char)
  read_aloud : Option (List Char)
  gm_guidance : Option (List Char)
  summary : Option (List Char)
  environment : Option EnvironmentRecord
  entities : List EntityRecord
  interactions : List InteractionRecord
  loot : List LootRecord
  next : List EdgeRecord
deriving DecidableEq, Repr

structure EnvironmentSpec where
  light : List Char
  terrain : List Char
  sound : List Char
  notes : Option (List Char)
deriving DecidableEq, Repr

structure EntitySpec where
  name : List Char
  etype : List Char
  ref_slug : Option (List Char)
  count : Int
  state : List Char
  disposition : List Char
deriving DecidableEq, Repr

structure InteractionSpec where
  trigger : List Char
  mechanic : List Char
  success : List Char
  failure : Option (List Char)
deriving DecidableEq, Repr

structure LootSpec where
  item : List Char
  quantity : Int
  description : Option (List Char)
deriving DecidableEq, Repr

structure SceneEdge where
  toId : List Char
  weight : Int
  label : List Char
  condition : Option (List Char)
deriving DecidableEq, Repr

structure SceneNode where
  id : List Char
  title : List Char
  stype : List Char
  read_aloud : List Char
  gm_guidance : List Char
  environment : EnvironmentSpec
  entities : List EntitySpec
  interactions : List InteractionSpec
  loot : List LootSpec
  edges : List SceneEdge
deriving DecidableEq, Repr

structure StoryGraph where
  nodes : List (List Char × SceneNode)
deriving DecidableEq, Repr

/-- `StoryGraph.add_scene`: insert or replace. -/
def add_scene (g : StoryGraph) (node : SceneNode) : StoryGraph :=
  { nodes := alistInsert g.nodes node.id node }

def parseEntities : List EntityRecord → Except PyError (List EntitySpec)
  | [] => .ok []
  | e :: es =>
    match e.name with
    | none => .error .keyError
    | some nm =>
      match parseEntities es with
      | .error err => .error err
      | .ok rest =>
        .ok ({ name := nm
               etype := e.etype.getD "monster".toList
               ref_slug := e.ref_slug
               count := e.count.getD 1
               state := e.state.getD "Idle".toList
               disposition := e.disposition.getD "hostile".toList } :: rest)

def parseInteractions : List InteractionRecord → Except PyError (List InteractionSpec)
  | [] => .ok []
  | i :: is' =>
    match i.trigger with
    | none => .error .keyError
    | some tr =>
      match parseInteractions is' with
      | .error err => .error err
      | .ok rest =>
        .ok ({ trigger := tr
               mechanic := i.mechanic.getD "None".toList
               success := i.success.getD "".toList
               failure := i.failure } :: rest)

def parseLoot : List LootRecord → Except PyError (List LootSpec)
  | [] => .ok []
  | l :: ls =>
    match l.item with
    | none => .error .keyError
    | some it =>
      match parseLoot ls with
      | .error err => .error err
      | .ok rest =>
        .ok ({ item := it
               quantity := l.quantity.getD 1
               description := l.description } :: rest)

def parseEdges : List EdgeRecord → Except PyError (List SceneEdge)
  | [] => .ok []
  | ed :: eds =>
    match ed.toId with
    | none => .error .keyError
    | some t =>
      match parseEdges eds with
      | .error err => .error err
      | .ok rest =>
        .ok ({ toId := t
               weight := ed.weight.getD 1
               label := ed.label.getD "".toList
               condition := ed.condition } :: rest)

/-- `StoryGraph.add_scene_from_dict`: all parsing happens before the single
`add_scene` call, so a malformed record leaves the graph untouched. -/
def add_scene_from_dict (g : StoryGraph) (data : SceneRecord) :
    StoryGraph × Except PyError SceneNode :=
  match data.id with
  | none => (g, .error .keyError)
  | some scene_id =>
    let env_data := data.environment.getD
      { light := none, terrain := none, sound := none, notes := none }
    let environment : EnvironmentSpec :=
      { light := env_data.light.getD "Normal".toList
        terrain := env_data.terrain.getD "Normal".toList
        sound := env_data.sound.getD "".toList
        notes := env_data.notes }
    match parseEntities data.entities with
    | .error e => (g, .error e)
    | .ok entities =>
      match parseInteractions data.interactions with
      | .error e => (g, .error e)
      | .ok interactions =>
        match parseLoot data.loot with
        | .error e => (g, .error e)
        | .ok loot =>
          match parseEdges data.next with
          | .error e => (g, .error e)
          | .ok edges =>
            let node : SceneNode :=
              { id := scene_id
                title := data.title.getD scene_id
                stype := data.stype.getD "encounter".toList
                read_aloud := data.read_aloud.getD "".toList
                gm_guidance := data.gm_guidance.getD (data.summary.getD "".toList)
                environment := environment
                entities := entities
                interactions := interactions
                loot := loot
                edges := edges }
            (add_scene g node, .ok node)

/-- The batch loop of `StoryGraph.add_scenes_from_json_list` (after the JSON
string has been decoded into a list of records): each record is added as it
is parsed, and the first failure propagates as the raised exception while
earlier insertions persist on the graph. -/
def add_scenes_from_json_list (g : StoryGraph) :
    List SceneRecord → StoryGraph × Except PyError (List SceneNode)
  | [] => (g, .ok [])
  | d :: ds =>
    match add_scene_from_dict g d with
    | (g1, .error e) => (g1, .error e)
    | (g1, .ok node) =>
      match add_scenes_from_json_list g1 ds with
      | (g2, .error e) => (g2, .error e)
      | (g2, .ok nodes) => (g2, .ok (node :: nodes))

/-- `StoryGraph.validate_graph`: report dangling edges without raising. -/
def validate_graph (g : StoryGraph) : List (List Char × List Char) :=
  g.nodes.flatMap (fun p =>
    p.2.edges.filterMap (fun e =>
      if alistContains g.nodes e.toId then none else some (p.1, e.toId)))

/-! ## Game runtime data (`app/schemas.py` slices)

Only the fields the engine logic reads are modelled; prompt-only fields feed
the external language models and never influence the state transitions. -/

def truthyOptStr : Option (List Char) → Bool
  | none => false
  | some s => !s.isEmpty

/-- Python `a or b` on optional strings (empty string is falsy). -/
def orStr (a : Option (List Char)) (b : List Char) : List Char :=
  match a with
  | none => b
  | some s => if s.isEmpty then b else s

/-- Python `a or b` on optional ints (`0` is falsy). -/
def orTruthyInt : Option Int → Option Int → Option Int
  | some v, b => if v = 0 then b else some v
  | none, b => b

structure Attack where
  name : List Char
  bonus : Int
  damage : List Char
  damage_type : List Char
deriving DecidableEq, Repr

structure CharacterSheetSlice where
  ac : Int
  attacks : List Attack
deriving DecidableEq, Repr

structure Player where
  name : List Char
  character_sheet : CharacterSheetSlice
  current_hp : Int
deriving DecidableEq, Repr

/-- An enemy action dict from the story JSON (`MonsterAction` shape). -/
structure MonsterActionRecord where
  name : Option (List Char)
  attack_bonus : Option Int
  damage_dice : Option (List Char)
deriving DecidableEq, Repr

structure EnemyStats where
  hp_max : Option Int
  hp : Option Int
  ac : Option Int
  actions : Option (List MonsterActionRecord)
deriving DecidableEq, Repr

def emptyEnemyStats : EnemyStats :=
  { hp_max := none, hp := none, ac := none, actions := none }

/-- An entity dict inside a story node. -/
structure FightEntity where
  name : Option (List Char)
  etype : Option (List Char)
  stats : Option EnemyStats
deriving DecidableEq, Repr

/-- The slice of a `story.json` node that the runtime engine reads. -/
structure NodeRecord where
  title : Option (List Char)
  ntype : Option (List Char)
  read_aloud : Option (List Char)
  entities : Option (List FightEntity)
deriving DecidableEq, Repr

/-- `GameSession` slice: the per-enemy entry `{"damage_taken": n}` is carried
directly as the integer `n`. -/
structure Session where
  current_node_id : List Char
  current_node_turns : Int
  players : List Player
  enemy_states : List (List Char × Int)
  chat_history : List (List Char × List Char)
deriving DecidableEq, Repr

structure DMResponse where
  narrative : List Char
  mechanics_log : Option (List Char)
  damage_taken : Int
  transition_to_id : Option (List Char)
  active_mode : Option (List Char)
deriving DecidableEq, Repr

/-! ## Round Pipeline (`app/engine/fight_agent.py`)

The planner and narrator LLM calls are external collaborators: the plan is an
input, and the narrator is an arbitrary function of the round summary. -/

structure PlayerActionPlan where
  kind : Option (List Char)
  attack_name : Option (List Char)
  target : Option (List Char)
deriving DecidableEq, Repr

structure EnemyActionPlan where
  kind : Option (List Char)
  action_name : Option (List Char)
  target : Option (List Char)
deriving DecidableEq, Repr

structure CombatStatePlan where
  should_end : Option Bool
  end_reason : Option (List Char)
deriving DecidableEq, Repr

structure FightPlan where
  player_action : Option PlayerActionPlan
  enemy_action : Option EnemyActionPlan
  combat_state : Option CombatStatePlan
deriving DecidableEq, Repr

def emptyPlayerActionPlan : PlayerActionPlan :=
  { kind := none, attack_name := none, target := none }

def emptyEnemyActionPlan : EnemyActionPlan :=
  { kind := none, action_name := none, target := none }

def emptyCombatStatePlan : CombatStatePlan :=
  { should_end := none, end_reason := none }

structure RoundSummary where
  player_name : List Char
  player_hp_before : Int
  player_hp_after : Int
  enemy_name : List Char
  enemy_hp_before : Int
  enemy_hp_after : Int
  player_action : PlayerActionPlan
  enemy_action : EnemyActionPlan
  player_attack : Option AttackResult
  enemy_attack : Option AttackResult
  mechanics_log : List (List Char)
deriving Repr

/-- `_build_player_attack_map`: skip falsy names, later entries overwrite. -/
def build_player_attack_map (player : Player) : List (List Char × Attack) :=
  player.character_sheet.attacks.foldl
    (fun m atk => if atk.name.isEmpty then m else alistInsert m atk.name atk) []

/-- `_build_enemy_action_map`. -/
def build_enemy_action_map (acts : List MonsterActionRecord) :
    List (List Char × MonsterActionRecord) :=
  acts.foldl
    (fun m act =>
      match act.name with
      | none => m
      | some nm => if nm.isEmpty then m else alistInsert m nm act) []

/-- `_choose_default_enemy_attack`: first action with a bonus and dice. -/
def choose_default_enemy_attack : List MonsterActionRecord → Option MonsterActionRecord
  | [] => none
  | act :: rest =>
    if act.attack_bonus.isSome ∧ truthyOptStr act.damage_dice then some act
    else choose_default_enemy_attack rest

def apostrophe : Char := Char.ofNat 39

/-- `_run_attack_and_log`: strip spaces from the dice, call `resolve_attack`
with the synthetic attack name, and zero the damage on a miss. -/
def run_attack_and_log (attacker_name : List Char) (attack_bonus : Int)
    (damage_dice : List Char) (target_name : List Char) (target_ac : Int) (g : Rng) :
    Except PyError (Int × List Char × AttackResult × Rng) :=
  let clean_dice := damage_dice.filter (fun c => c ≠ ' ')
  match resolve_attack attacker_name (attacker_name ++ apostrophe :: "s attack".toList)
      attack_bonus target_name target_ac clean_dice g with
  | .error e => .error e
  | .ok (result, g1) =>
    let dmg := if result.is_hit then result.damage_dealt else 0
    .ok (dmg, result.log, result, g1)

/-- The player-attack block of `process_fight_round`: runs only when the plan
names a known attack for an `attack`/`cast_spell` kind and the attack has
damage dice. -/
def player_attack_phase (player : Player) (player_action : PlayerActionPlan)
    (enemy_name : List Char) (enemy_ac : Int) (g : Rng) :
    Except PyError (Int × List (List Char) × Option AttackResult × Rng) :=
  let player_attack_map := build_player_attack_map player
  let pa_kind := (player_action.kind.getD "other".toList)
  match player_action.attack_name with
  | none => .ok (0, [], none, g)
  | some nm =>
    if pa_kind = "attack".toList ∨ pa_kind = "cast_spell".toList then
      match alistLookup player_attack_map nm with
      | none => .ok (0, [], none, g)
      | some atk =>
        if !atk.damage.isEmpty then
          match run_attack_and_log player.name atk.bonus atk.damage enemy_name enemy_ac g with
          | .error e => .error e
          | .ok (dmg, log_str, result, g1) => .ok (dmg, [log_str], some result, g1)
        else .ok (0, [], none, g)
    else .ok (0, [], none, g)

/-- The `enemy_attack_dict` selection of `process_fight_round`: the planner's
named action if known, otherwise the first usable default. -/
def select_enemy_attack (enemy_action : EnemyActionPlan)
    (enemy_actions : List MonsterActionRecord) : Option MonsterActionRecord :=
  let enemy_action_map := build_enemy_action_map enemy_actions
  let ea_kind := (enemy_action.kind.getD "attack".toList)
  if ea_kind = "attack".toList then
    match enemy_action.action_name with
    | some nm =>
      match alistLookup enemy_action_map nm with
      | some d => some d
      | none => choose_default_enemy_attack enemy_actions
    | none => choose_default_enemy_attack enemy_actions
  else none

/-- The enemy-attack block of `process_fight_round`: fall back to the first
usable action when the planner's choice is unknown; no aliveness check. -/
def enemy_attack_phase (player : Player) (enemy_action : EnemyActionPlan)
    (enemy_name : List Char) (enemy_actions : List MonsterActionRecord) (g : Rng) :
    Except PyError (Int × List (List Char) × Option AttackResult × Rng) :=
  match select_enemy_attack enemy_action enemy_actions with
  | none => .ok (0, [], none, g)
  | some d =>
    match d.attack_bonus, d.damage_dice with
    | some b, some dd =>
      if !dd.isEmpty then
        match run_attack_and_log enemy_name b dd player.name player.character_sheet.ac g with
        | .error e => .error e
        | .ok (dmg, log_str, result, g1) => .ok (dmg, [log_str], some result, g1)
      else .ok (0, [], none, g)
    | _, _ => .ok (0, [], none, g)

def endReasonAccepted : Option (List Char) → Bool
  | none => false
  | some r =>
    r = "enemy_dead".toList || r = "player_dead".toList ||
      r = "truce".toList || r = "escape".toList

def systemDefeatNote (enemy_name : List Char) : List Char :=
  "\n\n(System: ".toList ++ enemy_name ++ " has been defeated!)".toList

def systemUnconsciousNote : List Char :=
  "\n\n(System: You fall to 0 HP and drop unconscious.)".toList

def isPrefixOfB : List Char → List Char → Bool
  | [], _ => true
  | _ :: _, [] => false
  | a :: as, b :: bs => a = b && isPrefixOfB as bs

/-- Python `needle in hay` for strings (substring test). -/
def isSubstring (needle : List Char) : List Char → Bool
  | [] => needle.isEmpty
  | c :: t => isPrefixOfB needle (c :: t) || isSubstring needle t

def lowerContains (hay needle : List Char) : Bool :=
  isSubstring needle (hay.map Char.toLower)

/-- The commit tail of `process_fight_round` (HP updates, round summary,
narration, end state, history) as a function of the resolved attack phases. -/
def commit_round (session : Session) (player : Player) (restPlayers : List Player)
    (enemy_name : List Char) (enemy_max_hp enemy_damage_taken enemy_current_hp : Int)
    (player_action : PlayerActionPlan) (enemy_action : EnemyActionPlan)
    (combat_state : CombatStatePlan)
    (enemy_damage_this_round player_damage_this_round : Int)
    (logsP logsE : List (List Char))
    (player_attack_result enemy_attack_result : Option AttackResult)
    (narrate : RoundSummary → List Char) (player_input : List Char) :
    Session × DMResponse :=
  let mechanics_logs := logsP ++ logsE
  let old_player_hp := player.current_hp
  let player1 :=
    if player_damage_this_round > 0 then
      { player with current_hp := max 0 (player.current_hp - player_damage_this_round) }
    else player
  let commit :=
    if enemy_damage_this_round > 0 then
      let new_total := enemy_damage_taken + enemy_damage_this_round
      (alistInsert session.enemy_states enemy_name new_total,
        max 0 (enemy_max_hp - new_total))
    else (session.enemy_states, enemy_current_hp)
  let enemy_states1 := commit.1
  let enemy_current_hp_after := commit.2
  let round_summary : RoundSummary :=
    { player_name := player.name
      player_hp_before := old_player_hp
      player_hp_after := player1.current_hp
      enemy_name := enemy_name
      enemy_hp_before := enemy_current_hp
      enemy_hp_after := enemy_current_hp_after
      player_action := player_action
      enemy_action := enemy_action
      player_attack := player_attack_result
      enemy_attack := enemy_attack_result
      mechanics_log := mechanics_logs }
  let narrative_text := narrate round_summary
  let player_dead := decide (player1.current_hp ≤ 0)
  let enemy_dead := decide (enemy_current_hp_after ≤ 0)
  let external_end :=
    (combat_state.should_end = some true) ∧
      endReasonAccepted combat_state.end_reason = true
  let round_over : Bool := enemy_dead || player_dead || decide external_end
  let active_mode := if round_over then "action".toList else "fight".toList
  let nt1 :=
    if round_over && enemy_dead && !lowerContains narrative_text "defeat".toList then
      narrative_text ++ systemDefeatNote enemy_name
    else narrative_text
  let nt2 :=
    if round_over && player_dead && !lowerContains nt1 "unconscious".toList then
      nt1 ++ systemUnconsciousNote
    else nt1
  let mechanics_log_str :=
    if mechanics_logs.isEmpty then none else some (joinNl mechanics_logs)
  let dm : DMResponse :=
    { narrative := nt2, mechanics_log := mechanics_log_str,
      damage_taken := player_damage_this_round, transition_to_id := none,
      active_mode := some active_mode }
  let hist1 :=
    session.chat_history ++
      [("user".toList, "[Encounter] ".toList ++ player_input)]
  let hist2 :=
    if truthyOptStr dm.mechanics_log then
      hist1 ++ [("data".toList, joinNl mechanics_logs)]
    else hist1
  let hist3 := hist2 ++ [("assistant".toList, nt2)]
  let session1 : Session :=
    { session with
      players := player1 :: restPlayers
      enemy_states := enemy_states1
      chat_history := hist3 }
  (session1, dm)

/-- `FightAgent.process_fight_round`: one combat round.  The session, the
current story node, the planner output, the narrator, and the player input
are the external inputs; persistence (`save_session`) returns the final
session value.  Raised exceptions (e.g. malformed damage dice) surface as
`Except.error`. -/
def process_fight_round (session : Session) (current_node : NodeRecord)
    (plan : FightPlan) (narrate : RoundSummary → List Char)
    (player_input : List Char) (g : Rng) :
    Except PyError (Session × DMResponse × Rng) :=
  match session.players with
  | [] => .error .indexError
  | player :: restPlayers =>
    let entities := current_node.entities.getD []
    let enemies := entities.filter (fun e => e.etype = some "monster".toList)
    match enemies with
    | [] =>
      let narrative := "There are no hostile monsters here. Combat seems to be over.".toList
      let dm : DMResponse :=
        { narrative := narrative, mechanics_log := none, damage_taken := 0,
          transition_to_id := none, active_mode := some "action".toList }
      let session1 :=
        { session with chat_history := session.chat_history ++ [("assistant".toList, narrative)] }
      .ok (session1, dm, g)
    | target_enemy :: _ =>
      let enemy_name := target_enemy.name.getD "Enemy".toList
      let enemy_stats := target_enemy.stats.getD emptyEnemyStats
      let enemy_max_hp := enemy_stats.hp_max.getD 30
      let enemy_ac := enemy_stats.ac.getD 12
      let enemy_damage_taken := (alistLookup session.enemy_states enemy_name).getD 0
      let enemy_current_hp := max 0 (enemy_max_hp - enemy_damage_taken)
      if enemy_current_hp ≤ 0 then
        let narrative :=
          enemy_name ++ " already lies defeated. There is nothing left to fight here.".toList
        let dm : DMResponse :=
          { narrative := narrative, mechanics_log := none, damage_taken := 0,
            transition_to_id := none, active_mode := some "action".toList }
        let session1 :=
          { session with chat_history := session.chat_history ++ [("assistant".toList, narrative)] }
        .ok (session1, dm, g)
      else
        let player_action := plan.player_action.getD emptyPlayerActionPlan
        let enemy_action := plan.enemy_action.getD emptyEnemyActionPlan
        let combat_state := plan.combat_state.getD emptyCombatStatePlan
        match player_attack_phase player player_action enemy_name enemy_ac g with
        | .error e => .error e
        | .ok (enemy_damage_this_round, logsP, player_attack_result, g1) =>
          let enemy_actions := enemy_stats.actions.getD []
          match enemy_attack_phase player enemy_action enemy_name enemy_actions g1 with
          | .error e => .error e
          | .ok (player_damage_this_round, logsE, enemy_attack_result, g2) =>
            let out := commit_round session player restPlayers enemy_name enemy_max_hp
              enemy_damage_taken enemy_current_hp player_action enemy_action combat_state
              enemy_damage_this_round player_damage_this_round logsP logsE
              player_attack_result enemy_attack_result narrate player_input
            .ok (out.1, out.2, g2)

/-! ## Narrative turn (`app/engine/ai_dm.py`, `DungeonMasterAI.process_turn`)

The LLM tool loop and prompt construction feed the external model and do not
touch engine state; their observable products are the accumulated
`mechanics_logs` (from `ability_check` tool calls) and the model's final raw
JSON decision, both taken as inputs here.  The encounter-art branch is
modelled in the `client_google is None` configuration (no Google client), in
which it is skipped entirely. -/

structure RawDecision where
  narrative : Option (List Char)
  mechanics_log : Option (List Char)
  damage_taken : Option Int
  transition_to_id : Option (List Char)
deriving DecidableEq, Repr

/-- The `[Combat Begins]` welcome text generated when the turn transitions
into a `combat` node. -/
def combatWelcomeText (player : Player) (new_node : NodeRecord) : List Char :=
  let entities := new_node.entities.getD []
  let enemies := entities.filter (fun e => e.etype = some "monster".toList)
  let enemy_name :=
    match enemies with
    | e :: _ => e.name.getD "enemy".toList
    | [] => "enemy".toList
  let enemy_stats :=
    match enemies with
    | e :: _ => e.stats.getD emptyEnemyStats
    | [] => emptyEnemyStats
  let enemy_hp_max := orTruthyInt enemy_stats.hp_max (orTruthyInt enemy_stats.hp none)
  let attack_lines := player.character_sheet.attacks.map
    (fun atk => "- ".toList ++ atk.name ++ " (".toList ++ atk.damage ++ ")".toList)
  let attacks_block :=
    if !attack_lines.isEmpty then joinNl attack_lines
    else "（you don".toList ++ apostrophe ::
      "t have any registered attacks on your character sheet.）".toList
  let w1 := "\n\n[Combat Begins]\n".toList ++ enemy_name ++ " shows dangerous intent!\n".toList
  let w2 :=
    match enemy_hp_max with
    | some hp =>
      w1 ++ "your ".toList ++ enemy_name ++ " (approximately ".toList
        ++ pyIntStr hp ++ " HP).\n".toList
    | none => w1
  w2 ++ "\nYour main attacks are:\n".toList ++ attacks_block ++ "\n\n".toList
    ++ "Describe your first combat action (e.g., ".toList ++ apostrophe ::
      "I attack with my longsword".toList ++ apostrophe :: " or ".toList ++ apostrophe ::
      "I cast a fireball".toList ++ apostrophe :: ").".toList

/-- The welcome text for a non-combat node: `[Entered: title]` plus the
node's read-aloud text. -/
def enteredWelcomeText (new_node : NodeRecord) : List Char :=
  "\n\n[Entered: ".toList ++ orStr new_node.title "Unknown Scene".toList
    ++ "]\n".toList ++ orStr new_node.read_aloud [] 

/-- `DungeonMasterAI.process_turn` after the model produced its raw decision:
pacing-counter increment, log merging, node transition with welcome text,
code-driven `active_mode`, history bookkeeping. -/
def process_turn (session : Session) (nodes : List (List Char × NodeRecord))
    (mechanics_logs : List (List Char)) (raw : RawDecision)
    (player_input : List Char) : Except PyError (Session × DMResponse) :=
  match session.players with
  | [] => .error .indexError
  | player :: restPlayers =>
    let session1 := { session with current_node_turns := session.current_node_turns + 1 }
    let dm0 : DMResponse :=
      { narrative := pyStrip (raw.narrative.getD [])
        mechanics_log := raw.mechanics_log
        damage_taken := raw.damage_taken.getD 0
        transition_to_id := raw.transition_to_id
        active_mode := none }
    let merged_log :=
      if !mechanics_logs.isEmpty then
        let combined := joinNl mechanics_logs
        match dm0.mechanics_log with
        | some ml =>
          if !ml.isEmpty then some (ml ++ "\n[Verified]:\n".toList ++ combined)
          else some combined
        | none => some combined
      else dm0.mechanics_log
    let dm1 := { dm0 with mechanics_log := merged_log }
    let transitionTaken :=
      match dm1.transition_to_id with
      | none => none
      | some t => if !t.isEmpty then alistLookup nodes t |>.map (fun n => (t, n)) else none
    match transitionTaken with
    | some (t, new_node) =>
      let session2 := { session1 with current_node_id := t, current_node_turns := 0 }
      let transitioned_to_combat := new_node.ntype = some "combat".toList
      let welcome_text :=
        if transitioned_to_combat then combatWelcomeText player new_node
        else enteredWelcomeText new_node
      let session3 :=
        { session2 with chat_history :=
            session2.chat_history ++ [("assistant".toList, welcome_text)] }
      let dm2 := { dm1 with narrative := dm1.narrative ++ welcome_text }
      let dm3 :=
        { dm2 with active_mode :=
            if transitioned_to_combat then some "fight".toList else none }
      let hist1 := session3.chat_history ++ [("user".toList, player_input)]
      let hist2 :=
        if truthyOptStr dm3.mechanics_log then
          hist1 ++ [("data".toList, dm3.mechanics_log.getD [])]
        else hist1
      let hist3 := hist2 ++ [("assistant".toList, dm3.narrative)]
      .ok ({ session3 with chat_history := hist3, players := player :: restPlayers }, dm3)
    | none =>
      let dm3 := { dm1 with active_mode := none }
      let hist1 := session1.chat_history ++ [("user".toList, player_input)]
      let hist2 :=
        if truthyOptStr dm3.mechanics_log then
          hist1 ++ [("data".toList, dm3.mechanics_log.getD [])]
        else hist1
      let hist3 := hist2 ++ [("assistant".toList, dm3.narrative)]
      .ok ({ session1 with chat_history := hist3 }, dm3)




/-! ## Predicates and concrete inputs used by the verification -/

/-- A scanned term is well-formed for rolling when any dice body has at
least one side (Python `randint(1, sides)` requires `sides ≥ 1`). -/
def MatchBody.sidesOk : MatchBody → Bool
  | .dice _ sides => decide (1 ≤ sides)
  | .flat _ => true

/-- Every die outcome recorded in a term lies in `[1, sides]`. -/
def TermResult.wellRolled : TermResult → Bool
  | .flat _ _ _ => true
  | .dice _ _ sides rolls _ => rolls.all (fun r => decide (1 ≤ r) && decide (r ≤ sides))

/-- A random source whose next d20 draw is a natural 20 (`1 + 19 % 20`). -/
def c3Rng : Rng := ⟨fun _ => 19, 0⟩

def c3Call : Except PyError (AttackResult × Rng) :=
  resolve_attack "Thorin".toList "Mace".toList 5 "Zombie".toList 13 "1d6+2".toList c3Rng

def c3Res : AttackResult :=
  match c3Call with
  | .ok (r, _) => r
  | .error _ => { is_hit := false, damage_dealt := 0, log := [] }

def c3G2 : Rng :=
  match c3Call with
  | .ok (_, g) => g
  | .error _ => c3Rng


/-- Two random sources agree when they yield the same draws from their
current positions onward.  This captures "the same underlying entropy" for
two separate calls. -/
def Rng.Agree (g h : Rng) : Prop :=
  ∀ k, g.stream (g.pos + k) = h.stream (h.pos + k)

def c9RngA : Rng := ⟨fun _ => 19, 0⟩

def c9RngB : Rng := ⟨fun _ => 0, 0⟩

def c9RngC : Rng := ⟨fun n => n + 19, 2⟩

def c9RngD : Rng := ⟨fun n => n + 21, 0⟩


/-- Ledger with one actor at HP 10, temp HP 4 (the spec example for C8). -/
def c8Actor : Actor :=
  { id := "hero".toList, name := "Hero".toList, max_hp := 12, hp := 10, temp_hp := 4,
    armor_class := some 15, conditions := [], extra := [] }

def c8Ledger : CombatState := [("hero".toList, c8Actor)]

/-- An over-healed actor: HP 15 above max HP 10 (for C10). -/
def c10Actor : Actor :=
  { id := "gnome".toList, name := "Gnome".toList, max_hp := 10, hp := 15, temp_hp := 0,
    armor_class := none, conditions := [], extra := [] }

def c10Ledger : CombatState := [("gnome".toList, c10Actor)]


/-- A well-formed scene record with id `"a"` and every optional field
defaulted (claim C4). -/
def c4GoodRecord : SceneRecord :=
  { id := some "a".toList, title := none, stype := none, read_aloud := none,
    gm_guidance := none, summary := none, environment := none,
    entities := [], interactions := [], loot := [], next := [] }

/-- A malformed scene record: the required `id` field is missing. -/
def c4BadRecord : SceneRecord :=
  { id := none, title := none, stype := none, read_aloud := none,
    gm_guidance := none, summary := none, environment := none,
    entities := [], interactions := [], loot := [], next := [] }

def c4NodeA : SceneNode :=
  match (add_scene_from_dict ⟨[]⟩ c4GoodRecord).2 with
  | .ok n => n
  | .error _ =>
      { id := [], title := [], stype := [], read_aloud := [], gm_guidance := [],
        environment := { light := [], terrain := [], sound := [], notes := none },
        entities := [], interactions := [], loot := [], edges := [] }


/-- Concrete narrative-turn inputs for claim C5. -/
def c5Player : Player :=
  { name := "Ann".toList, character_sheet := { ac := 12, attacks := [] }, current_hp := 7 }

def c5Node : NodeRecord :=
  { title := some "Start".toList, ntype := some "roleplay".toList,
    read_aloud := some "hi".toList, entities := none }

def c5Session : Session :=
  { current_node_id := "n1".toList, current_node_turns := 3, players := [c5Player],
    enemy_states := [], chat_history := [] }

def c5Nodes : List (List Char × NodeRecord) := [("n1".toList, c5Node)]

def c5Raw : RawDecision :=
  { narrative := some "You go.".toList, mechanics_log := none, damage_taken := some 0,
    transition_to_id := some "nowhere".toList }


/-- Concrete combat-round inputs for claims C1 and C2. -/
def c1Attack : Attack :=
  { name := "Sword".toList, bonus := 5, damage := "1d4".toList,
    damage_type := "slashing".toList }

def c1Player : Player :=
  { name := "Kai".toList, character_sheet := { ac := 14, attacks := [c1Attack] },
    current_hp := 9 }

def c1EnemyAction : MonsterActionRecord :=
  { name := some "Claw".toList, attack_bonus := some 4, damage_dice := some "1d6".toList }

def c1Stats : EnemyStats :=
  { hp_max := some 5, hp := none, ac := some 10, actions := some [c1EnemyAction] }

def c1Entity : FightEntity :=
  { name := some "Merrow".toList, etype := some "monster".toList, stats := some c1Stats }

def c1Node : NodeRecord :=
  { title := none, ntype := some "combat".toList, read_aloud := none,
    entities := some [c1Entity] }

def c1Session : Session :=
  { current_node_id := "c".toList, current_node_turns := 0, players := [c1Player],
    enemy_states := [], chat_history := [] }

def c1PlayerAction : PlayerActionPlan :=
  { kind := some "attack".toList, attack_name := some "Sword".toList,
    target := some "Merrow".toList }

def c1EnemyActionPlan : EnemyActionPlan :=
  { kind := some "attack".toList, action_name := some "Claw".toList,
    target := some "Kai".toList }

def c1Plan : FightPlan :=
  { player_action := some c1PlayerAction, enemy_action := some c1EnemyActionPlan,
    combat_state := some { should_end := some false, end_reason := none } }

def c1Narr : RoundSummary → List Char := fun _ => "The clash.".toList

/-- Draws: player d20 (nat 20), player damage die, enemy d20, enemy die. -/
def c1Rng : Rng := ⟨fun n => [19, 3, 18, 2].getD n 0, 0⟩

def c1RPCall : Except PyError (AttackResult × Rng) :=
  resolve_attack "Kai".toList ("Kai".toList ++ apostrophe :: "s attack".toList) 5
    "Merrow".toList 10 "1d4".toList c1Rng

def c1RP : AttackResult :=
  match c1RPCall with
  | .ok (r, _) => r
  | .error _ => { is_hit := false, damage_dealt := 0, log := [] }

def c1G1 : Rng :=
  match c1RPCall with
  | .ok (_, g) => g
  | .error _ => c1Rng

def c1RECall : Except PyError (AttackResult × Rng) :=
  resolve_attack "Merrow".toList ("Merrow".toList ++ apostrophe :: "s attack".toList) 4
    "Kai".toList 14 "1d6".toList c1G1

def c1RE : AttackResult :=
  match c1RECall with
  | .ok (r, _) => r
  | .error _ => { is_hit := false, damage_dealt := 0, log := [] }

def c1G2 : Rng :=
  match c1RECall with
  | .ok (_, g) => g
  | .error _ => c1G1


/-- Round-2 of the spec scenario for C2: enemy max HP 30 with 18 cumulative
damage already stored in the session; this round's attack deals 15. -/
def c2Attack : Attack :=
  { name := "Blade".toList, bonus := 5, damage := "2d6+3".toList,
    damage_type := "slashing".toList }

def c2Player : Player :=
  { name := "Kai".toList, character_sheet := { ac := 14, attacks := [c2Attack] },
    current_hp := 9 }

def c2Stats : EnemyStats :=
  { hp_max := some 30, hp := none, ac := some 12, actions := some [] }

def c2Entity : FightEntity :=
  { name := some "Merrow".toList, etype := some "monster".toList, stats := some c2Stats }

def c2Node : NodeRecord :=
  { title := none, ntype := some "combat".toList, read_aloud := none,
    entities := some [c2Entity] }

def c2Session : Session :=
  { current_node_id := "c".toList, current_node_turns := 0, players := [c2Player],
    enemy_states := [("Merrow".toList, 18)], chat_history := [] }

def c2PlayerAction : PlayerActionPlan :=
  { kind := some "attack".toList, attack_name := some "Blade".toList,
    target := some "Merrow".toList }

def c2Plan : FightPlan :=
  { player_action := some c2PlayerAction, enemy_action := none, combat_state := none }

/-- Draws: d20 face 10 (hit, no crit), then damage dice 6 and 6. -/
def c2Rng : Rng := ⟨fun n => [9, 5, 5].getD n 0, 0⟩

def c2RPCall : Except PyError (AttackResult × Rng) :=
  resolve_attack "Kai".toList ("Kai".toList ++ apostrophe :: "s attack".toList) 5
    "Merrow".toList 12 "2d6+3".toList c2Rng

def c2RP : AttackResult :=
  match c2RPCall with
  | .ok (r, _) => r
  | .error _ => { is_hit := false, damage_dealt := 0, log := [] }

def c2G1 : Rng :=
  match c2RPCall with
  | .ok (_, g) => g
  | .error _ => c2Rng

/-! ## Scanner lemmas -/

theorem length_dropWhile_le (p : Char → Bool) :
    ∀ l : List Char, (l.dropWhile p).length ≤ l.length
  | [] => by simp
  | c :: cs => by
    by_cases h : p c
    · simp only [List.dropWhile_cons, h, if_true]
      have := length_dropWhile_le p cs
      simp only [List.length_cons]
      omega
    · simp [List.dropWhile_cons, h]

theorem length_dropWhile_lt_of_takeWhile_ne (p : Char → Bool) (l : List Char)
    (h : (l.takeWhile p).isEmpty = false) :
    (l.dropWhile p).length < l.length := by
  match l with
  | [] => simp [List.takeWhile] at h
  | d :: ds =>
    by_cases hd : p d
    · simp only [List.dropWhile_cons, hd, if_true]
      have := length_dropWhile_le p ds
      simp only [List.length_cons]
      omega
    · simp [List.takeWhile_cons, hd] at h

/-- A successful match consumes at least one character. -/
theorem matchTermAt_rest_lt (s : List Char) (sgn : Option Char) (b : MatchBody)
    (rest : List Char) (h : matchTermAt s = some (sgn, b, rest)) :
    rest.length < s.length := by
  unfold matchTermAt at h
  have hr1 : (matchSign s).2.length ≤ s.length := by
    unfold matchSign
    match s with
    | [] => simp
    | c :: cs =>
      by_cases hc : c = '+' ∨ c = '-' <;> simp [hc]
  set r1 := (matchSign s).2 with hr1def
  simp only at h
  match hr2 : r1.dropWhile Char.isDigit with
  | c :: cs =>
    rw [hr2] at h
    have hr2le : (c :: cs).length ≤ r1.length := by
      rw [← hr2]
      exact length_dropWhile_le _ r1
    by_cases hc : c = 'd' ∨ c = 'D'
    · simp only [hc, if_true] at h
      by_cases hss : (cs.takeWhile Char.isDigit).isEmpty
      · simp only [hss, if_true] at h
        by_cases hde : (r1.takeWhile Char.isDigit).isEmpty
        · simp [hde] at h
        · simp [hde] at h
          have h3 := h.2.2
          subst h3
          have := length_dropWhile_lt_of_takeWhile_ne Char.isDigit r1 (by simpa using hde)
          rw [hr2] at this
          simp only [List.length_cons] at this ⊢
          omega
      · simp [hss] at h
        have h3 := h.2.2
        subst h3
        have h2 : (cs.dropWhile Char.isDigit).length ≤ cs.length := length_dropWhile_le _ cs
        simp only [List.length_cons] at hr2le
        omega
    · simp only [hc, if_false] at h
      by_cases hde : (r1.takeWhile Char.isDigit).isEmpty
      · simp [hde] at h
      · simp [hde] at h
        have h3 := h.2.2
        subst h3
        have := length_dropWhile_lt_of_takeWhile_ne Char.isDigit r1 (by simpa using hde)
        rw [hr2] at this
        omega
  | [] =>
    rw [hr2] at h
    by_cases hde : (r1.takeWhile Char.isDigit).isEmpty
    · simp [hde] at h
    · simp [hde] at h
      have h3 := h.2.2
      subst h3
      have hne : r1 ≠ [] := by
        intro hnil
        rw [hnil] at hde
        simp [List.takeWhile] at hde
      have : 0 < r1.length := List.length_pos.mpr hne
      simp only [List.length_nil]
      omega


/-! ## Parsing lemmas: decimal digits round-trip -/

def decChars : List Char := ['0', '1', '2', '3', '4', '5', '6', '7', '8', '9']

theorem digitChar_mem_decChars (n : Nat) (h : n < 10) : digitChar n ∈ decChars := by
  interval_cases n <;> decide

theorem decChars_isDigit {c : Char} (h : c ∈ decChars) : c.isDigit = true := by
  fin_cases h <;> decide

theorem decChars_not_space {c : Char} (h : c ∈ decChars) : pyIsSpace c = false := by
  fin_cases h <;> decide

theorem digitVal_digitChar (n : Nat) (h : n < 10) : digitVal (digitChar n) = n := by
  interval_cases n <;> decide

theorem natDigitsAux_mem :
    ∀ fuel n, n < fuel → ∀ c ∈ natDigitsAux fuel n, c ∈ decChars := by
  intro fuel
  induction fuel with
  | zero => intro n h; omega
  | succ f ih =>
    intro n h c hc
    simp only [natDigitsAux] at hc
    by_cases h10 : n < 10
    · simp only [h10, if_true, List.mem_singleton] at hc
      subst hc
      exact digitChar_mem_decChars n h10
    · simp only [h10, if_false] at hc
      rcases List.mem_append.mp hc with h1 | h2
      · exact ih (n / 10) (by omega) c h1
      · simp only [List.mem_singleton] at h2
        subst h2
        exact digitChar_mem_decChars _ (Nat.mod_lt _ (by omega))

theorem natDigits_mem (n : Nat) : ∀ c ∈ natDigits n, c ∈ decChars :=
  natDigitsAux_mem (n + 1) n (by omega)

theorem natDigits_ne_nil (n : Nat) : natDigits n ≠ [] := by
  unfold natDigits natDigitsAux
  by_cases h : n < 10
  · simp [h]
  · simp only [h, if_false]
    intro hc
    have := List.append_eq_nil.mp hc
    simp at this

theorem digitsToNat_append_one (ds : List Char) (c : Char) :
    digitsToNat (ds ++ [c]) = 10 * digitsToNat ds + digitVal c := by
  simp [digitsToNat, List.foldl_append]

theorem digitsToNat_natDigitsAux :
    ∀ fuel n, n < fuel → digitsToNat (natDigitsAux fuel n) = n := by
  intro fuel
  induction fuel with
  | zero => intro n h; omega
  | succ f ih =>
    intro n h
    simp only [natDigitsAux]
    by_cases h10 : n < 10
    · simp only [h10, if_true]
      simp [digitsToNat, digitVal_digitChar n h10]
    · simp only [h10, if_false]
      rw [digitsToNat_append_one, ih (n / 10) (by omega),
        digitVal_digitChar _ (Nat.mod_lt _ (by omega))]
      omega

theorem digitsToNat_natDigits (n : Nat) : digitsToNat (natDigits n) = n :=
  digitsToNat_natDigitsAux (n + 1) n (by omega)

theorem takeWhile_all_digits {l : List Char} (h : ∀ c ∈ l, c ∈ decChars) :
    l.takeWhile Char.isDigit = l := by
  induction l with
  | nil => rfl
  | cons c cs ih =>
    have hc : c.isDigit = true := decChars_isDigit (h c (by simp))
    simp only [List.takeWhile_cons, hc, if_true]
    rw [ih (fun x hx => h x (by simp [hx]))]

theorem dropWhile_all_digits {l : List Char} (h : ∀ c ∈ l, c ∈ decChars) :
    l.dropWhile Char.isDigit = [] := by
  induction l with
  | nil => rfl
  | cons c cs ih =>
    have hc : c.isDigit = true := decChars_isDigit (h c (by simp))
    simp only [List.dropWhile_cons, hc, if_true]
    exact ih (fun x hx => h x (by simp [hx]))

theorem squashSpaces_no_space {l : List Char} (h : ∀ c ∈ l, pyIsSpace c = false) :
    ∀ b, squashSpaces b l = l := by
  induction l with
  | nil => intro b; rfl
  | cons c cs ih =>
    intro b
    have hc : pyIsSpace c = false := h c (by simp)
    simp only [squashSpaces, hc]
    rw [ih (fun x hx => h x (by simp [hx])) false]
    simp

theorem dropWhile_no_space {l : List Char} (h : ∀ c ∈ l, pyIsSpace c = false) :
    l.dropWhile pyIsSpace = l := by
  match l with
  | [] => rfl
  | c :: cs =>
    have hc : pyIsSpace c = false := h c (by simp)
    simp [List.dropWhile_cons, hc]

theorem normalizeExpr_no_space {l : List Char} (h : ∀ c ∈ l, pyIsSpace c = false) :
    normalizeExpr l = l := by
  unfold normalizeExpr pyStrip
  rw [dropWhile_no_space h]
  rw [dropWhile_no_space (fun c hc => h c (List.mem_reverse.mp hc))]
  rw [List.reverse_reverse]
  exact squashSpaces_no_space h false


/-! ## The `1d20+bonus` hit-roll expression -/

theorem pyIntStr_no_space (b : Int) : ∀ c ∈ pyIntStr b, pyIsSpace c = false := by
  intro c hc
  unfold pyIntStr at hc
  by_cases hb : b < 0
  · simp only [hb, if_true, List.mem_cons] at hc
    rcases hc with rfl | hc
    · decide
    · exact decChars_not_space (natDigits_mem _ c hc)
  · simp only [hb, if_false] at hc
    exact decChars_not_space (natDigits_mem _ c hc)

theorem hitExpr_no_space (b : Int) :
    ∀ c ∈ "1d20+".toList ++ pyIntStr b, pyIsSpace c = false := by
  intro c hc
  rcases List.mem_append.mp hc with h1 | h2
  · fin_cases h1 <;> decide
  · exact pyIntStr_no_space b c h2

theorem matchTermAt_hitHead (rest : List Char) :
    matchTermAt ('1' :: 'd' :: '2' :: '0' :: '+' :: rest) =
      some (none, .dice (some 1) 20, '+' :: rest) := rfl

theorem matchTermAt_signed_digits (sgnC : Char) (ds : List Char)
    (hsgn : sgnC = '+' ∨ sgnC = '-') (hne : ds ≠ []) (hds : ∀ c ∈ ds, c ∈ decChars) :
    matchTermAt (sgnC :: ds) = some (some sgnC, .flat (digitsToNat ds), []) := by
  unfold matchTermAt matchSign
  simp only
  rw [if_pos hsgn]
  simp only
  rw [takeWhile_all_digits hds, dropWhile_all_digits hds]
  simp [List.isEmpty_iff, hne]

theorem findTermsAux_irrel :
    ∀ fuel1 fuel2 s, s.length < fuel1 → s.length < fuel2 →
      findTermsAux fuel1 s = findTermsAux fuel2 s := by
  intro fuel1
  induction fuel1 with
  | zero => intro fuel2 s h1 h2; omega
  | succ f ih =>
    intro fuel2 s h1 h2
    match fuel2 with
    | 0 => omega
    | k + 1 =>
      simp only [findTermsAux]
      match hm : matchTermAt s with
      | some (sgn, b, rest) =>
        have hlt := matchTermAt_rest_lt s sgn b rest hm
        dsimp only
        rw [ih k rest (by omega) (by omega)]
      | none =>
        dsimp only
        match s with
        | [] => rfl
        | c :: cs =>
          simp only [List.length_cons] at h1 h2
          exact ih k cs (by omega) (by omega)

theorem findTerms_cons_of_match {s : List Char} {sgn : Option Char} {b : MatchBody}
    {rest : List Char} (h : matchTermAt s = some (sgn, b, rest)) :
    findTerms s = (sgn, b) :: findTerms rest := by
  unfold findTerms
  have hlt := matchTermAt_rest_lt s sgn b rest h
  simp only [findTermsAux, h]
  rw [findTermsAux_irrel s.length (rest.length + 1) rest (by omega) (by omega)]
  simp only [findTermsAux]

theorem findTerms_skip_of_none {c : Char} {cs : List Char}
    (h : matchTermAt (c :: cs) = none) :
    findTerms (c :: cs) = findTerms cs := by
  unfold findTerms
  simp only [findTermsAux, h, List.length_cons]

theorem findTerms_nil : findTerms [] = [] := rfl

theorem findTerms_hitExpr (b : Int) :
    findTerms ("1d20+".toList ++ pyIntStr b) =
      [(none, .dice (some 1) 20),
       (some (if b < 0 then '-' else '+'), .flat b.natAbs)] := by
  have hexpr : "1d20+".toList ++ pyIntStr b = '1' :: 'd' :: '2' :: '0' :: '+' :: pyIntStr b := rfl
  rw [hexpr, findTerms_cons_of_match (matchTermAt_hitHead (pyIntStr b))]
  by_cases hb : b < 0
  · have hps : pyIntStr b = '-' :: natDigits b.natAbs := by
      unfold pyIntStr
      rw [if_pos hb]
    rw [hps]
    have hnone : matchTermAt ('+' :: '-' :: natDigits b.natAbs) = none := rfl
    rw [findTerms_skip_of_none hnone]
    rw [findTerms_cons_of_match
      (matchTermAt_signed_digits '-' (natDigits b.natAbs) (Or.inr rfl)
        (natDigits_ne_nil _) (natDigits_mem _))]
    rw [findTerms_nil, digitsToNat_natDigits]
    simp [hb]
  · have hps : pyIntStr b = natDigits b.natAbs := by
      unfold pyIntStr
      rw [if_neg hb]
    rw [hps]
    rw [findTerms_cons_of_match
      (matchTermAt_signed_digits '+' (natDigits b.natAbs) (Or.inl rfl)
        (natDigits_ne_nil _) (natDigits_mem _))]
    rw [findTerms_nil, digitsToNat_natDigits]
    simp [hb]


theorem roll_dice_hitExpr (b : Int) (g : Rng) :
    roll_dice ("1d20+".toList ++ pyIntStr b) g =
      .ok ({ expression := "1d20+".toList ++ pyIntStr b
             normalized := "1d20+".toList ++ pyIntStr b
             total := ((1 + g.stream g.pos % 20 : Nat) : Int) + b
             terms := [.dice '+' 1 20 [1 + g.stream g.pos % 20]
                         ((1 + g.stream g.pos % 20 : Nat) : Int),
                       .flat (if b < 0 then '-' else '+') b.natAbs b] },
           ⟨g.stream, g.pos + 1⟩) := by
  unfold roll_dice
  rw [normalizeExpr_no_space (hitExpr_no_space b)]
  simp only [findTerms_hitExpr]
  by_cases hb : b < 0
  · simp only [hb, if_true]
    simp [rollTerms, rollN, randint, RollResult.mk.injEq]
    rw [abs_of_neg hb]
    ring
  · simp only [hb, if_false]
    simp [rollTerms, rollN, randint, RollResult.mk.injEq]
    omega


/-! ## Claim C3: d20 semantics of `resolve_attack` -/

/-- C3: For every call of `resolve_attack` that returns a result: a raw d20
face of 20 is a hit regardless of AC with damage exactly twice the rolled
(non-doubled) damage-dice total for the same dice outcome; a face of 1 is a
miss regardless of AC and bonus, with damage 0; otherwise the attack hits
iff the d20 total plus the attack bonus meets the target AC, a hit deals
exactly the rolled damage-dice total, and a miss deals 0. -/
theorem resolve_attack_d20_semantics
    (an ak tn : List Char) (b ac : Int) (dd : List Char) (g : Rng)
    (res : AttackResult) (g2 : Rng)
    (hok : resolve_attack an ak b tn ac dd g = .ok (res, g2)) :
    ∀ hr g1, roll_dice ("1d20+".toList ++ pyIntStr b) g = .ok (hr, g1) →
    ∀ r, firstRollOf hr = .ok r →
      ((r = 20 → res.is_hit = true ∧
          ∀ dr gd, roll_dice dd g1 = .ok (dr, gd) → res.damage_dealt = 2 * dr.total) ∧
       (r = 1 → res.is_hit = false ∧ res.damage_dealt = 0) ∧
       (r ≠ 20 → r ≠ 1 →
         (res.is_hit = true ↔ hr.total ≥ ac) ∧
         (res.is_hit = true →
           ∀ dr gd, roll_dice dd g1 = .ok (dr, gd) → res.damage_dealt = dr.total) ∧
         (res.is_hit = false → res.damage_dealt = 0))) := by
  intro hr g1 hroll r hfr
  rw [roll_dice_hitExpr] at hroll
  have hhr : hr = { expression := "1d20+".toList ++ pyIntStr b
                    normalized := "1d20+".toList ++ pyIntStr b
                    total := ((1 + g.stream g.pos % 20 : Nat) : Int) + b
                    terms := [.dice '+' 1 20 [1 + g.stream g.pos % 20]
                                ((1 + g.stream g.pos % 20 : Nat) : Int),
                              .flat (if b < 0 then '-' else '+') b.natAbs b] } := by
    have := (Except.ok.injEq _ _).mp hroll
    exact ((Prod.mk.injEq _ _ _ _).mp this |>.1).symm
  have hg1 : g1 = ⟨g.stream, g.pos + 1⟩ := by
    have := (Except.ok.injEq _ _).mp hroll
    exact ((Prod.mk.injEq _ _ _ _).mp this |>.2).symm
  have hrval : r = 1 + g.stream g.pos % 20 := by
    rw [hhr] at hfr
    simp [firstRollOf] at hfr
    omega
  unfold resolve_attack at hok
  rw [roll_dice_hitExpr] at hok
  simp only [firstRollOf] at hok
  set rr := 1 + g.stream g.pos % 20 with hrr
  refine ⟨?_, ?_, ?_⟩
  · intro h20
    have hcrit : rr = 20 := by omega
    simp only [hcrit, reduceIte] at hok
    match hd : roll_dice dd { stream := g.stream, pos := g.pos + 1 } with
    | .error e =>
      rw [hd] at hok
      cases hok
    | .ok (dmg_roll, gd0) =>
      rw [hd] at hok
      simp only [Except.ok.injEq, Prod.mk.injEq] at hok
      obtain ⟨hres, -⟩ := hok
      constructor
      · rw [← hres]
      · intro dr gd hdr
        rw [hg1, hd] at hdr
        simp only [Except.ok.injEq, Prod.mk.injEq] at hdr
        obtain ⟨hdr1, -⟩ := hdr
        rw [← hres, ← hdr1]
        simp
        ring
  · intro h1
    have hfum : rr = 1 := by omega
    have hne20 : ¬(rr = 20) := by omega
    simp [hfum, hne20] at hok
    obtain ⟨hres, -⟩ := hok
    rw [← hres]
    exact ⟨rfl, rfl⟩
  · intro hne20 hne1
    have h20 : ¬(rr = 20) := by omega
    have h1 : ¬(rr = 1) := by omega
    simp only [if_neg h20, if_neg h1] at hok
    by_cases hhit : ((rr : Int) + b ≥ ac)
    · simp only [ge_iff_le] at hhit
      simp [hhit] at hok
      match hd : roll_dice dd { stream := g.stream, pos := g.pos + 1 } with
      | .error e =>
        rw [hd] at hok
        cases hok
      | .ok (dmg_roll, gd0) =>
        rw [hd] at hok
        simp only [Except.ok.injEq, Prod.mk.injEq] at hok
        obtain ⟨hres, -⟩ := hok
        refine ⟨?_, ?_, ?_⟩
        · rw [← hres, hhr]
          simpa using hhit
        · intro _ dr gd hdr
          rw [hg1, hd] at hdr
          simp only [Except.ok.injEq, Prod.mk.injEq] at hdr
          obtain ⟨hdr1, -⟩ := hdr
          rw [← hres, ← hdr1]
        · intro hmiss
          rw [← hres] at hmiss
          simp at hmiss
    · simp [hhit] at hok
      obtain ⟨hres, -⟩ := hok
      refine ⟨?_, ?_, ?_⟩
      · rw [← hres, hhr]
        constructor
        · intro hc
          simp at hc
        · intro hc
          exfalso
          exact hhit (by simpa using hc)
      · intro hc
        rw [← hres] at hc
        simp at hc
      · intro _
        rw [← hres]


/-! ## Roll invariants (claim C7) -/

theorem randint_one_mem {sides : Nat} {g g1 : Rng} {r : Nat}
    (h : randint 1 sides g = some (r, g1)) : 1 ≤ r ∧ r ≤ sides := by
  unfold randint at h
  by_cases hs : 1 ≤ sides
  · rw [if_pos hs] at h
    simp only [Option.some.injEq, Prod.mk.injEq] at h
    obtain ⟨hr, -⟩ := h
    have : g.stream g.pos % (sides + 1 - 1) < sides + 1 - 1 := Nat.mod_lt _ (by omega)
    omega
  · rw [if_neg hs] at h
    cases h

theorem rollN_mem {num sides : Nat} :
    ∀ {g : Rng} {rolls : List Nat} {g1 : Rng}, rollN num sides g = some (rolls, g1) →
      ∀ r ∈ rolls, 1 ≤ r ∧ r ≤ sides := by
  induction num with
  | zero =>
    intro g rolls g1 h r hr
    simp only [rollN, Option.some.injEq, Prod.mk.injEq] at h
    obtain ⟨hr0, -⟩ := h
    rw [← hr0] at hr
    cases hr
  | succ n ih =>
    intro g rolls g1 h r hr
    simp only [rollN] at h
    match h1 : randint 1 sides g with
    | none => rw [h1] at h; cases h
    | some (v, gv) =>
      rw [h1] at h
      dsimp only at h
      match h2 : rollN n sides gv with
      | none => rw [h2] at h; cases h
      | some (rs, gs) =>
        rw [h2] at h
        simp only [Option.some.injEq, Prod.mk.injEq] at h
        obtain ⟨hrolls, -⟩ := h
        rw [← hrolls] at hr
        rcases List.mem_cons.mp hr with rfl | hmem
        · exact randint_one_mem h1
        · exact ih h2 r hmem

theorem rollN_ok {sides : Nat} (hs : 1 ≤ sides) :
    ∀ num (g : Rng), ∃ out, rollN num sides g = some out := by
  intro num
  induction num with
  | zero => intro g; exact ⟨([], g), rfl⟩
  | succ n ih =>
    intro g
    simp only [rollN]
    unfold randint
    rw [if_pos hs]
    dsimp only
    obtain ⟨⟨rs, gs⟩, hout⟩ := ih ⟨g.stream, g.pos + 1⟩
    rw [hout]
    exact ⟨_, rfl⟩

theorem rollTerms_spec :
    ∀ (ms : List (Option Char × MatchBody)) (g : Rng) (ts : List TermResult)
      (total : Int) (g1 : Rng), rollTerms ms g = some (ts, total, g1) →
      total = (ts.map TermResult.subtotal).sum ∧
      ts.all TermResult.wellRolled = true ∧
      (ts = [] ↔ ms = []) := by
  intro ms
  induction ms with
  | nil =>
    intro g ts total g1 h
    simp only [rollTerms, Option.some.injEq, Prod.mk.injEq] at h
    obtain ⟨h1, h2, -⟩ := h
    simp [← h1, ← h2]
  | cons m rest ih =>
    intro g ts total g1 h
    obtain ⟨sgnGroup, body⟩ := m
    simp only [rollTerms] at h
    match body with
    | .flat n =>
      dsimp only at h
      match hrec : rollTerms rest g with
      | none => rw [hrec] at h; cases h
      | some (ts0, total0, g0) =>
        rw [hrec] at h
        simp only [Option.some.injEq, Prod.mk.injEq] at h
        obtain ⟨hts, htot, -⟩ := h
        obtain ⟨ih1, ih2, -⟩ := ih g ts0 total0 g0 hrec
        constructor
        · rw [← htot, ← hts]
          simp [TermResult.subtotal, ih1]
        constructor
        · rw [← hts]
          simp only [List.all_cons, ih2, Bool.and_true]
          rfl
        · rw [← hts]
          simp
    | .dice numGroup sides =>
      dsimp only at h
      match hrn : rollN (numGroup.getD 1) sides g with
      | none => rw [hrn] at h; cases h
      | some (rolls, gr) =>
        rw [hrn] at h
        dsimp only at h
        match hrec : rollTerms rest gr with
        | none => rw [hrec] at h; cases h
        | some (ts0, total0, g0) =>
          rw [hrec] at h
          simp only [Option.some.injEq, Prod.mk.injEq] at h
          obtain ⟨hts, htot, -⟩ := h
          obtain ⟨ih1, ih2, -⟩ := ih gr ts0 total0 g0 hrec
          constructor
          · rw [← htot, ← hts]
            simp [TermResult.subtotal, ih1]
          constructor
          · rw [← hts]
            simp only [List.all_cons, ih2, Bool.and_true]
            simp only [TermResult.wellRolled, List.all_eq_true]
            intro r hr
            have := rollN_mem hrn r hr
            simp only [Bool.and_eq_true, decide_eq_true_eq]
            omega
          · rw [← hts]
            simp


theorem rollTerms_ok :
    ∀ (ms : List (Option Char × MatchBody)),
      (∀ m ∈ ms, MatchBody.sidesOk m.2 = true) →
      ∀ g : Rng, ∃ out, rollTerms ms g = some out := by
  intro ms
  induction ms with
  | nil => intro _ g; exact ⟨([], 0, g), rfl⟩
  | cons m rest ih =>
    intro hok g
    obtain ⟨sgnGroup, body⟩ := m
    simp only [rollTerms]
    match body with
    | .flat n =>
      dsimp only
      obtain ⟨⟨ts, total, g1⟩, hrec⟩ := ih (fun x hx => hok x (by simp [hx])) g
      rw [hrec]
      exact ⟨_, rfl⟩
    | .dice numGroup sides =>
      dsimp only
      have hs : 1 ≤ sides := by
        have := hok (sgnGroup, .dice numGroup sides) (by simp)
        simpa [MatchBody.sidesOk] using this
      obtain ⟨⟨rolls, gr⟩, hrn⟩ := rollN_ok hs (numGroup.getD 1) g
      rw [hrn]
      dsimp only
      obtain ⟨⟨ts, total, g1⟩, hrec⟩ := ih (fun x hx => hok x (by simp [hx])) gr
      rw [hrec]
      exact ⟨_, rfl⟩

/-- C7: for every dice expression whose recognized terms are well-formed
(dice sides at least 1), `roll_dice` succeeds, and for every successful roll
the integer total equals the sum of the signed per-term subtotals while
every recorded die outcome lies in `[1, sides]` of its term. -/
theorem roll_dice_total_invariant (expr : List Char) :
    (∀ (g : Rng) (res : RollResult) (g1 : Rng), roll_dice expr g = .ok (res, g1) →
       res.total = (res.terms.map TermResult.subtotal).sum ∧
       res.terms.all TermResult.wellRolled = true) ∧
    ((findTerms (normalizeExpr expr)).isEmpty = false →
     (∀ m ∈ findTerms (normalizeExpr expr), MatchBody.sidesOk m.2 = true) →
     ∀ g : Rng, ∃ res g1, roll_dice expr g = .ok (res, g1)) := by
  constructor
  · intro g res g1 h
    unfold roll_dice at h
    by_cases hni : (normalizeExpr expr).isEmpty
    · rw [if_pos hni] at h
      cases h
    · rw [if_neg hni] at h
      match hrt : rollTerms (findTerms (normalizeExpr expr)) g with
      | none => rw [hrt] at h; cases h
      | some (ts, total, g2) =>
        rw [hrt] at h
        dsimp only at h
        by_cases hts : ts.isEmpty
        · rw [if_pos hts] at h
          cases h
        · rw [if_neg hts] at h
          simp only [Except.ok.injEq, Prod.mk.injEq] at h
          obtain ⟨hres, -⟩ := h
          obtain ⟨h1, h2, -⟩ := rollTerms_spec _ g ts total g2 hrt
          rw [← hres]
          exact ⟨h1, h2⟩
  · intro hne hok g
    unfold roll_dice
    have hni : (normalizeExpr expr).isEmpty = false := by
      rcases he : normalizeExpr expr with _ | ⟨c, cs⟩
      · rw [he, findTerms_nil] at hne
        simp at hne
      · simp
    simp only [hni, Bool.false_eq_true, if_false]
    obtain ⟨⟨ts, total, g1⟩, hrt⟩ := rollTerms_ok _ hok g
    rw [hrt]
    dsimp only
    have hts : ts.isEmpty = false := by
      obtain ⟨-, -, hiff⟩ := rollTerms_spec _ g ts total g1 hrt
      rcases ht : ts with _ | _
      · rw [ht] at hiff
        have := hiff.mp rfl
        rw [this] at hne
        simp at hne
      · simp
    rw [hts]
    simp only [Bool.false_eq_true, if_false]
    exact ⟨_, _, rfl⟩

/-- C7 witness: the invariant instantiated on `"2d6+3"` with a concrete
random source. -/
theorem roll_dice_total_invariant_witness :
    ((findTerms (normalizeExpr "2d6+3".toList)).isEmpty = false) ∧
    (∃ res g1, roll_dice "2d6+3".toList ⟨fun _ => 3, 0⟩ = .ok (res, g1) ∧
       res.total = (res.terms.map TermResult.subtotal).sum ∧
       res.terms.all TermResult.wellRolled = true) := by
  refine ⟨by decide, ?_⟩
  obtain ⟨res, g1, h⟩ := (roll_dice_total_invariant "2d6+3".toList).2 (by decide)
    (by decide) ⟨fun _ => 3, 0⟩
  exact ⟨res, g1, h, (roll_dice_total_invariant "2d6+3".toList).1 _ res g1 h⟩

/-! ## Claim C6: parse failures of `roll_dice` -/

/-- C6 counterexample: `"5+abc"` contains the malformed term `abc`, yet
`roll_dice` does not fail — it returns a partial roll built from the single
recognized term `5` (total 5, one flat term). -/
theorem roll_dice_partial_roll_counterexample :
    (roll_dice "5+abc".toList ⟨fun _ => 0, 0⟩).map
        (fun p => (p.1.total, p.1.terms)) =
      .ok (5, [TermResult.flat '+' 5 5]) := rfl

/-- C6 amended: `roll_dice` fails with a `ParseError` (`ValueError` in the
source: empty expression or no term parsed) exactly when the scan recognizes
no term at all; an expression with at least one recognizable term never
produces a parse error — malformed fragments are skipped and a roll built
from the recognized terms is returned (a recognized `d0` term can still fail
with the distinct `randint` range error). -/
theorem roll_dice_parse_error_iff (expr : List Char) (g : Rng) :
    (roll_dice expr g = .error .emptyExpression ∨
     roll_dice expr g = .error .noTermsParsed) ↔
      findTerms (normalizeExpr expr) = [] := by
  unfold roll_dice
  rcases he : normalizeExpr expr with _ | ⟨c, cs⟩
  · simp [he, findTerms_nil]
  · simp only [he, List.isEmpty_cons, Bool.false_eq_true, if_false]
    match hrt : rollTerms (findTerms (c :: cs)) g with
    | none =>
      dsimp only
      constructor
      · intro hc
        rcases hc with hc | hc <;> cases hc
      · intro hc
        rw [hc] at hrt
        simp [rollTerms] at hrt
    | some (ts, total, g1) =>
      dsimp only
      obtain ⟨-, -, hiff⟩ := rollTerms_spec _ g ts total g1 hrt
      by_cases hts : ts.isEmpty
      · rw [if_pos hts]
        simp only [List.isEmpty_iff] at hts
        constructor
        · intro _
          exact hiff.mp hts
        · intro _
          right
          rfl
      · rw [if_neg hts]
        constructor
        · intro hc
          rcases hc with hc | hc <;> cases hc
        · intro hc
          exfalso
          exact hts (by simp [List.isEmpty_iff, hiff.mpr hc])

/-! ## Claim C3 witness -/

/-- C3 witness: seed stream constantly 19 gives a natural 20 (crit) with
bonus +5 against AC 13 and damage dice `1d6+2`; the call succeeds and the
theorem applies to it. -/
theorem resolve_attack_d20_semantics_witness :
    (resolve_attack "Thorin".toList "Mace".toList 5 "Zombie".toList 13 "1d6+2".toList c3Rng
      = .ok (c3Res, c3G2)) ∧
    (∀ hr g1, roll_dice ("1d20+".toList ++ pyIntStr 5) c3Rng = .ok (hr, g1) →
     ∀ r, firstRollOf hr = .ok r →
      ((r = 20 → c3Res.is_hit = true ∧
          ∀ dr gd, roll_dice "1d6+2".toList g1 = .ok (dr, gd) →
            c3Res.damage_dealt = 2 * dr.total) ∧
       (r = 1 → c3Res.is_hit = false ∧ c3Res.damage_dealt = 0) ∧
       (r ≠ 20 → r ≠ 1 →
         (c3Res.is_hit = true ↔ hr.total ≥ 13) ∧
         (c3Res.is_hit = true →
           ∀ dr gd, roll_dice "1d6+2".toList g1 = .ok (dr, gd) →
             c3Res.damage_dealt = dr.total) ∧
         (c3Res.is_hit = false → c3Res.damage_dealt = 0)))) :=
  ⟨rfl, resolve_attack_d20_semantics "Thorin".toList "Mace".toList "Zombie".toList 5 13
    "1d6+2".toList c3Rng c3Res c3G2 rfl⟩


/-! ## Claim C9: determinism of `resolve_attack` relative to the random
source -/

theorem Rng.Agree.head {g h : Rng} (a : Rng.Agree g h) :
    g.stream g.pos = h.stream h.pos := by
  have := a 0
  simpa using this

theorem Rng.Agree.step {g h : Rng} (a : Rng.Agree g h) :
    Rng.Agree ⟨g.stream, g.pos + 1⟩ ⟨h.stream, h.pos + 1⟩ := by
  intro k
  have := a (k + 1)
  simpa [Nat.add_assoc, Nat.add_comm, Nat.add_left_comm] using this

theorem randint_agree (lo hi : Nat) {g h : Rng} (a : Rng.Agree g h) :
    (randint lo hi g = none ∧ randint lo hi h = none) ∨
    (∃ v g1 h1, randint lo hi g = some (v, g1) ∧ randint lo hi h = some (v, h1) ∧
      Rng.Agree g1 h1) := by
  unfold randint
  by_cases hle : lo ≤ hi
  · right
    refine ⟨lo + g.stream g.pos % (hi + 1 - lo), ⟨g.stream, g.pos + 1⟩,
      ⟨h.stream, h.pos + 1⟩, by rw [if_pos hle], ?_, a.step⟩
    rw [if_pos hle, a.head]
  · left
    rw [if_neg hle, if_neg hle]
    exact ⟨rfl, rfl⟩

theorem rollN_agree (sides : Nat) :
    ∀ (num : Nat) {g h : Rng}, Rng.Agree g h →
      (rollN num sides g = none ∧ rollN num sides h = none) ∨
      (∃ rolls g1 h1, rollN num sides g = some (rolls, g1) ∧
        rollN num sides h = some (rolls, h1) ∧ Rng.Agree g1 h1) := by
  intro num
  induction num with
  | zero =>
    intro g h a
    right
    exact ⟨[], g, h, rfl, rfl, a⟩
  | succ n ih =>
    intro g h a
    simp only [rollN]
    rcases randint_agree 1 sides a with ⟨hg, hh⟩ | ⟨v, g1, h1, hg, hh, a1⟩
    · left
      rw [hg, hh]
      exact ⟨rfl, rfl⟩
    · rw [hg, hh]
      dsimp only
      rcases ih a1 with ⟨hg2, hh2⟩ | ⟨rolls, g2, h2, hg2, hh2, a2⟩
      · left
        rw [hg2, hh2]
        exact ⟨rfl, rfl⟩
      · right
        rw [hg2, hh2]
        exact ⟨v :: rolls, g2, h2, rfl, rfl, a2⟩

theorem rollTerms_agree :
    ∀ (ms : List (Option Char × MatchBody)) {g h : Rng}, Rng.Agree g h →
      (rollTerms ms g = none ∧ rollTerms ms h = none) ∨
      (∃ ts total g1 h1, rollTerms ms g = some (ts, total, g1) ∧
        rollTerms ms h = some (ts, total, h1) ∧ Rng.Agree g1 h1) := by
  intro ms
  induction ms with
  | nil =>
    intro g h a
    right
    exact ⟨[], 0, g, h, rfl, rfl, a⟩
  | cons m rest ih =>
    intro g h a
    obtain ⟨sgnGroup, body⟩ := m
    simp only [rollTerms]
    match body with
    | .flat n =>
      dsimp only
      rcases ih a with ⟨hg, hh⟩ | ⟨ts, total, g1, h1, hg, hh, a1⟩
      · left
        rw [hg, hh]
        exact ⟨rfl, rfl⟩
      · right
        rw [hg, hh]
        exact ⟨_, _, g1, h1, rfl, rfl, a1⟩
    | .dice numGroup sides =>
      dsimp only
      rcases rollN_agree sides (numGroup.getD 1) a with ⟨hg, hh⟩ |
        ⟨rolls, g1, h1, hg, hh, a1⟩
      · left
        rw [hg, hh]
        exact ⟨rfl, rfl⟩
      · rw [hg, hh]
        dsimp only
        rcases ih a1 with ⟨hg2, hh2⟩ | ⟨ts, total, g2, h2, hg2, hh2, a2⟩
        · left
          rw [hg2, hh2]
          exact ⟨rfl, rfl⟩
        · right
          rw [hg2, hh2]
          exact ⟨_, _, g2, h2, rfl, rfl, a2⟩

theorem roll_dice_agree (expr : List Char) {g h : Rng} (a : Rng.Agree g h) :
    (∀ e, roll_dice expr g = .error e → roll_dice expr h = .error e) ∧
    (∀ r g1, roll_dice expr g = .ok (r, g1) →
      ∃ h1, roll_dice expr h = .ok (r, h1) ∧ Rng.Agree g1 h1) := by
  unfold roll_dice
  by_cases hni : (normalizeExpr expr).isEmpty
  · simp only [hni, if_true]
    constructor
    · intro e he
      exact he
    · intro r g1 hr
      cases hr
  · simp only [hni, Bool.false_eq_true, if_false]
    rcases rollTerms_agree (findTerms (normalizeExpr expr)) a with ⟨hg, hh⟩ |
      ⟨ts, total, g1, h1, hg, hh, a1⟩
    · rw [hg, hh]
      constructor
      · intro e he
        exact he
      · intro r g2 hr
        cases hr
    · rw [hg, hh]
      dsimp only
      by_cases hts : ts.isEmpty
      · simp only [hts, if_true]
        constructor
        · intro e he
          exact he
        · intro r g2 hr
          cases hr
      · simp only [hts, Bool.false_eq_true, if_false]
        constructor
        · intro e he
          cases he
        · intro r g2 hr
          simp only [Except.ok.injEq, Prod.mk.injEq] at hr
          obtain ⟨hr1, hr2⟩ := hr
          refine ⟨h1, ?_, ?_⟩
          · rw [hr1]
          · rw [← hr2]
            exact a1

/-- C9 amended: `resolve_attack` accepts no seed parameter, but it is a pure
function of its arguments and of the random draws it consumes: two calls
with identical arguments whose random sources agree produce the identical
`AttackResult` (same hit/crit/fumble outcome, same damage, same log). -/
theorem resolve_attack_deterministic (an ak : List Char) (b : Int) (tn : List Char)
    (ac : Int) (dd : List Char) {g h : Rng} (a : Rng.Agree g h) :
    (∀ e, resolve_attack an ak b tn ac dd g = .error e →
          resolve_attack an ak b tn ac dd h = .error e) ∧
    (∀ res g1, resolve_attack an ak b tn ac dd g = .ok (res, g1) →
      ∃ h1, resolve_attack an ak b tn ac dd h = .ok (res, h1)) := by
  unfold resolve_attack
  rw [roll_dice_hitExpr b g, roll_dice_hitExpr b h]
  dsimp only
  rw [← a.head]
  simp only [firstRollOf]
  set r := 1 + g.stream g.pos % 20 with hr
  have astep : Rng.Agree ⟨g.stream, g.pos + 1⟩ ⟨h.stream, h.pos + 1⟩ := a.step
  by_cases h20 : r = 20
  · simp only [h20, reduceIte]
    rcases (roll_dice_agree dd astep).2 with hok
    constructor
    · intro e he
      match hd : roll_dice dd ⟨g.stream, g.pos + 1⟩ with
      | .error e0 =>
        obtain hh := (roll_dice_agree dd astep).1 e0 hd
        rw [hd] at he
        rw [hh]
        exact he
      | .ok (dr, gd) =>
        rw [hd] at he
        cases he
    · intro res g1 hres
      match hd : roll_dice dd ⟨g.stream, g.pos + 1⟩ with
      | .error e0 =>
        rw [hd] at hres
        cases hres
      | .ok (dr, gd) =>
        obtain ⟨h1, hh, -⟩ := hok dr gd hd
        rw [hd] at hres
        rw [hh]
        dsimp only at hres ⊢
        simp only [Except.ok.injEq, Prod.mk.injEq] at hres
        obtain ⟨h1eq, -⟩ := hres
        exact ⟨h1, by rw [h1eq]⟩
  · by_cases h1 : r = 1
    · simp only [if_neg h20, if_pos h1, Bool.false_eq_true, if_false]
      constructor
      · intro e he
        cases he
      · intro res g1 hres
        simp only [Except.ok.injEq, Prod.mk.injEq] at hres
        obtain ⟨hres1, -⟩ := hres
        exact ⟨⟨h.stream, h.pos + 1⟩, by rw [hres1]⟩
    · simp only [if_neg h20, if_neg h1]
      by_cases hhit : ((ac : Int) ≤ (r : Int) + b)
      · simp only [decide_eq_true hhit, eq_self_iff_true, if_true]
        rcases (roll_dice_agree dd astep).2 with hok
        constructor
        · intro e he
          match hd : roll_dice dd ⟨g.stream, g.pos + 1⟩ with
          | .error e0 =>
            obtain hh := (roll_dice_agree dd astep).1 e0 hd
            rw [hd] at he
            rw [hh]
            exact he
          | .ok (dr, gd) =>
            rw [hd] at he
            cases he
        · intro res g1 hres
          match hd : roll_dice dd ⟨g.stream, g.pos + 1⟩ with
          | .error e0 =>
            rw [hd] at hres
            cases hres
          | .ok (dr, gd) =>
            obtain ⟨h1x, hh, -⟩ := hok dr gd hd
            rw [hd] at hres
            rw [hh]
            dsimp only at hres ⊢
            simp only [Except.ok.injEq, Prod.mk.injEq] at hres
            obtain ⟨h1eq, -⟩ := hres
            exact ⟨h1x, by rw [h1eq]⟩
      · simp only [decide_eq_false hhit, Bool.false_eq_true, if_false]
        constructor
        · intro e he
          cases he
        · intro res g1 hres
          simp only [Except.ok.injEq, Prod.mk.injEq] at hres
          obtain ⟨hres1, -⟩ := hres
          exact ⟨⟨h.stream, h.pos + 1⟩, by rw [hres1]⟩

/-- C9 counterexample: `resolve_attack` has no seed parameter, so "the same
supplied seed" cannot be realized; two calls with identical arguments
(the spec scenario: bonus +5 vs AC 13, dice `1d6+2`) observe different
draws from the unseeded source and return different hit flags and damage. -/
theorem resolve_attack_no_seed_counterexample :
    ((resolve_attack "A".toList "atk".toList 5 "B".toList 13 "1d6+2".toList c9RngA).map
       (fun p => (p.1.is_hit, p.1.damage_dealt)) = .ok (true, 8)) ∧
    ((resolve_attack "A".toList "atk".toList 5 "B".toList 13 "1d6+2".toList c9RngB).map
       (fun p => (p.1.is_hit, p.1.damage_dealt)) = .ok (false, 0)) :=
  ⟨rfl, rfl⟩

/-- C9 witness: two distinct sources that agree on the consumed draws give
the same result. -/
theorem resolve_attack_deterministic_witness :
    Rng.Agree c9RngC c9RngD ∧
    (∀ res g1,
      resolve_attack "A".toList "atk".toList 5 "B".toList 13 "1d6+2".toList c9RngC
        = .ok (res, g1) →
      ∃ h1, resolve_attack "A".toList "atk".toList 5 "B".toList 13 "1d6+2".toList c9RngD
        = .ok (res, h1)) := by
  have ha : Rng.Agree c9RngC c9RngD := by
    intro k
    simp [c9RngC, c9RngD, Rng.Agree]
    omega
  exact ⟨ha, (resolve_attack_deterministic "A".toList "atk".toList 5 "B".toList 13
    "1d6+2".toList ha).2⟩


/-! ## Claims C8 and C10: actor ledger -/

theorem alistLookup_insert {α : Type} (m : List (List Char × α)) (k : List Char) (v : α) :
    alistLookup (alistInsert m k v) k = some v := by
  induction m with
  | nil => simp [alistInsert, alistLookup]
  | cons p rest ih =>
    obtain ⟨k0, v0⟩ := p
    by_cases hk : k0 = k
    · simp [alistInsert, alistLookup, hk]
    · simp only [alistInsert, hk, if_false, alistLookup]
      exact ih

theorem alistLookup_insert_ne {α : Type} (m : List (List Char × α)) {k k1 : List Char}
    (v : α) (h : k ≠ k1) :
    alistLookup (alistInsert m k v) k1 = alistLookup m k1 := by
  induction m with
  | nil => simp [alistInsert, alistLookup, h]
  | cons p rest ih =>
    obtain ⟨k0, v0⟩ := p
    by_cases hk : k0 = k
    · subst hk
      simp only [alistInsert, if_pos rfl, alistLookup]
      rw [if_neg h, if_neg h]
    · simp only [alistInsert, hk, if_false, alistLookup]
      by_cases hk1 : k0 = k1
      · rw [if_pos hk1, if_pos hk1]
      · rw [if_neg hk1, if_neg hk1]
        exact ih

/-- C8: for every actor present in the ledger (with a non-negative temp HP,
as all ledger operations maintain) and every damage amount, `apply_damage`
consumes temp HP strictly before base HP — base HP is reduced only by the
damage exceeding the available temp HP — and never drives base HP below 0. -/
theorem apply_damage_temp_first (st : CombatState) (actor_id : List Char) (amount : Int)
    (a : Actor) (hl : alistLookup st actor_id = some a) (htemp : 0 ≤ a.temp_hp) :
    ∃ a1 summary,
      apply_damage st actor_id amount = (alistInsert st actor_id a1, some summary) ∧
      a1.temp_hp = a.temp_hp - min a.temp_hp (max 0 amount) ∧
      a1.hp = (if max 0 amount ≤ a.temp_hp then a.hp
               else max 0 (a.hp - (max 0 amount - a.temp_hp))) ∧
      (0 ≤ a.hp → 0 ≤ a1.hp) := by
  unfold apply_damage
  rw [hl]
  dsimp only
  by_cases hb : a.temp_hp > 0 ∧ max 0 amount > 0
  · rw [if_pos hb]
    dsimp only
    by_cases h2 : max 0 amount - min a.temp_hp (max 0 amount) > 0
    · rw [if_pos h2]
      refine ⟨_, _, rfl, by simp, ?_, ?_⟩
      · dsimp only
        rw [if_neg (by omega)]
        congr 1
        omega
      · intro h0
        dsimp only
        omega
    · rw [if_neg h2]
      refine ⟨_, _, rfl, by simp, ?_, ?_⟩
      · dsimp only
        rw [if_pos (by omega)]
      · intro h0
        dsimp only
        omega
  · rw [if_neg hb]
    dsimp only
    by_cases h2 : max 0 amount > 0
    · rw [if_pos h2]
      refine ⟨_, _, rfl,
        (by show a.temp_hp = a.temp_hp - min a.temp_hp (max 0 amount); omega), ?_, ?_⟩
      · dsimp only
        rw [if_neg (by omega)]
        congr 1
        omega
      · intro h0
        dsimp only
        omega
    · rw [if_neg h2]
      refine ⟨_, _, rfl,
        (by show a.temp_hp = a.temp_hp - min a.temp_hp (max 0 amount); omega), ?_, ?_⟩
      · dsimp only
        rw [if_pos (by omega)]
      · intro h0
        exact h0

/-- C8 witness: actor at HP 10 with temp HP 4 taking 6 damage ends at HP 8
and temp HP 0, exactly as the spec example requires. -/
theorem apply_damage_temp_first_witness :
    (alistLookup c8Ledger "hero".toList = some c8Actor) ∧
    (0 ≤ c8Actor.temp_hp) ∧
    (∃ a1 summary,
      apply_damage c8Ledger "hero".toList 6 = (alistInsert c8Ledger "hero".toList a1, some summary) ∧
      a1.temp_hp = c8Actor.temp_hp - min c8Actor.temp_hp (max 0 6) ∧
      a1.hp = (if max 0 6 ≤ c8Actor.temp_hp then c8Actor.hp
               else max 0 (c8Actor.hp - (max 0 6 - c8Actor.temp_hp))) ∧
      (0 ≤ c8Actor.hp → 0 ≤ a1.hp)) ∧
    ((apply_damage c8Ledger "hero".toList 6).2.map (fun su => (su.after_hp, su.after_temp))
      = some (8, 0)) :=
  ⟨rfl, by decide, apply_damage_temp_first c8Ledger "hero".toList 6 c8Actor rfl (by decide),
   rfl⟩

/-- C10: without `allow_overheal`, `heal_actor` sets HP to exactly
`min (hp + amount) max_hp`, so on an actor whose HP exceeds its max (after a
prior over-heal) even a heal of 0 strictly decreases HP — heal is not
monotone non-decreasing on current HP, as the over-healed concrete instance
(HP 15, max 10, heal 0 → HP 10) shows. -/
theorem heal_actor_min_cap (st : CombatState) (actor_id : List Char) (amount : Int)
    (a : Actor) (hl : alistLookup st actor_id = some a) :
    (∃ summary, heal_actor st actor_id amount false =
       (alistInsert st actor_id { a with hp := min (a.hp + max 0 amount) a.max_hp },
        some summary)) ∧
    ((heal_actor c10Ledger "gnome".toList 0 false).2.map (fun su => su.after_hp)
       = some 10 ∧ (10 : Int) < c10Actor.hp) := by
  constructor
  · unfold heal_actor
    rw [hl]
    dsimp only
    rw [if_pos (by decide)]
    exact ⟨_, rfl⟩
  · exact ⟨rfl, by decide⟩

/-- C10 witness: the cap formula applied to the over-healed actor with a
heal of 0. -/
theorem heal_actor_min_cap_witness :
    (alistLookup c10Ledger "gnome".toList = some c10Actor) ∧
    (∃ summary, heal_actor c10Ledger "gnome".toList 0 false =
       (alistInsert c10Ledger "gnome".toList
          { c10Actor with hp := min (c10Actor.hp + max 0 0) c10Actor.max_hp },
        some summary)) :=
  ⟨rfl, (heal_actor_min_cap c10Ledger "gnome".toList 0 c10Actor rfl).1⟩


/-! ## Claim C4: story graph batch ingestion -/

theorem alistContains_insert {α : Type} (m : List (List Char × α)) (k : List Char) (v : α) :
    alistContains (alistInsert m k v) k = true := by
  simp [alistContains, alistLookup_insert]

theorem alistContains_insert_mono {α : Type} (m : List (List Char × α)) {k1 : List Char}
    (k : List Char) (v : α) (h : alistContains m k1 = true) :
    alistContains (alistInsert m k v) k1 = true := by
  by_cases hk : k = k1
  · subst hk
    simp [alistContains, alistLookup_insert]
  · simp only [alistContains, alistLookup_insert_ne m v hk]
    exact h

/-- `add_scene_from_dict` is per-record atomic: it either leaves the graph
untouched and reports the error, or inserts exactly one node carrying the
record's id. -/
theorem add_scene_from_dict_cases (g : StoryGraph) (d : SceneRecord) :
    (∃ e, add_scene_from_dict g d = (g, .error e)) ∨
    (∃ node, add_scene_from_dict g d = (add_scene g node, .ok node) ∧
      d.id = some node.id) := by
  unfold add_scene_from_dict
  match hid : d.id with
  | none => left; exact ⟨.keyError, rfl⟩
  | some scene_id =>
    dsimp only
    match parseEntities d.entities with
    | .error e => left; exact ⟨e, rfl⟩
    | .ok ents =>
      dsimp only
      match parseInteractions d.interactions with
      | .error e => left; exact ⟨e, rfl⟩
      | .ok inters =>
        dsimp only
        match parseLoot d.loot with
        | .error e => left; exact ⟨e, rfl⟩
        | .ok loots =>
          dsimp only
          match parseEdges d.next with
          | .error e => left; exact ⟨e, rfl⟩
          | .ok edges =>
            dsimp only
            right
            exact ⟨_, rfl, rfl⟩

theorem add_scenes_contains_mono :
    ∀ (ds : List SceneRecord) (g : StoryGraph) (i : List Char),
      alistContains g.nodes i = true →
      alistContains ((add_scenes_from_json_list g ds).1).nodes i = true := by
  intro ds
  induction ds with
  | nil => intro g i h; exact h
  | cons d rest ih =>
    intro g i h
    simp only [add_scenes_from_json_list]
    rcases add_scene_from_dict_cases g d with ⟨e, hcase⟩ | ⟨node, hcase, -⟩
    · rw [hcase]
      exact h
    · rw [hcase]
      dsimp only
      have h1 : alistContains (add_scene g node).nodes i = true :=
        alistContains_insert_mono g.nodes node.id node h
      have := ih (add_scene g node) i h1
      match hrec : add_scenes_from_json_list (add_scene g node) rest with
      | (g2, .error e) =>
        rw [hrec] at this
        exact this
      | (g2, .ok ns) =>
        rw [hrec] at this
        exact this

/-- C4 amended: ingestion validates each record as it goes and a malformed
record aborts the batch with the raised error, but the graph keeps every
node built from the well-formed records that preceded the malformed one —
a failed batch can leave a partial graph. -/
theorem add_scenes_batch_partial (g : StoryGraph) (pre : List SceneRecord)
    (bad : SceneRecord) (rest : List SceneRecord) (ns : List SceneNode) (e : PyError)
    (hpre : (add_scenes_from_json_list g pre).2 = .ok ns)
    (hbad : (add_scene_from_dict (add_scenes_from_json_list g pre).1 bad).2 = .error e) :
    add_scenes_from_json_list g (pre ++ bad :: rest) =
      ((add_scenes_from_json_list g pre).1, .error e) ∧
    (∀ d ∈ pre, ∀ i, d.id = some i →
      alistContains ((add_scenes_from_json_list g pre).1).nodes i = true) := by
  induction pre generalizing g ns with
  | nil =>
    refine ⟨?_, by simp⟩
    simp only [add_scenes_from_json_list, List.nil_append] at hbad ⊢
    rcases add_scene_from_dict_cases g bad with ⟨e0, hcase⟩ | ⟨node, hcase, -⟩
    · rw [hcase] at hbad ⊢
      dsimp only at hbad
      injection hbad with he
      rw [he]
    · rw [hcase] at hbad
      dsimp only at hbad
      cases hbad
  | cons d pre1 ih =>
    rcases add_scene_from_dict_cases g d with ⟨e0, hcase⟩ | ⟨node, hcase, hid⟩
    · exfalso
      simp only [add_scenes_from_json_list, hcase] at hpre
      cases hpre
    · have hunf1 : add_scenes_from_json_list g (d :: pre1) =
          (match add_scenes_from_json_list (add_scene g node) pre1 with
           | (g2, .error e1) => (g2, .error e1)
           | (g2, .ok nodes) => (g2, .ok (node :: nodes))) := by
        simp only [add_scenes_from_json_list, hcase]
      match hrec : add_scenes_from_json_list (add_scene g node) pre1 with
      | (g2, .error e1) =>
        exfalso
        rw [hunf1, hrec] at hpre
        cases hpre
      | (g2, .ok ns1) =>
        have hfst : (add_scenes_from_json_list g (d :: pre1)).1 = g2 := by
          rw [hunf1, hrec]
        rw [hfst] at hbad
        have hg2 : g2 = (add_scenes_from_json_list (add_scene g node) pre1).1 := by
          rw [hrec]
        rw [hg2] at hbad
        obtain ⟨ih1, ih2⟩ := ih (add_scene g node) ns1 (by rw [hrec]) hbad
        constructor
        · have hunf2 : add_scenes_from_json_list g ((d :: pre1) ++ bad :: rest) =
              (match add_scenes_from_json_list (add_scene g node) (pre1 ++ bad :: rest) with
               | (g3, .error e1) => (g3, .error e1)
               | (g3, .ok nodes) => (g3, .ok (node :: nodes))) := by
            simp only [List.cons_append, add_scenes_from_json_list, hcase, List.append_eq]
          rw [hunf2, ih1, hfst, hg2]
        · intro d0 hd0 i hi
          rcases List.mem_cons.mp hd0 with rfl | hmem
          · rw [hid] at hi
            injection hi with hi
            rw [hfst, hg2, ← hi]
            exact add_scenes_contains_mono pre1 (add_scene g node) node.id
              (alistContains_insert g.nodes node.id node)
          · rw [hfst, hg2]
            exact ih2 d0 hmem i hi

/-- C4 counterexample: a batch whose first record is well-formed (id `"a"`)
and whose second is malformed (missing `id`) fails with the `KeyError`, yet
node `"a"` is present in the graph afterwards — the batch is not rejected as
a whole. -/
theorem add_scenes_partial_graph_counterexample :
    ((add_scenes_from_json_list ⟨[]⟩ [c4GoodRecord, c4BadRecord]).2 = .error .keyError) ∧
    (alistContains (add_scenes_from_json_list ⟨[]⟩ [c4GoodRecord, c4BadRecord]).1.nodes
       "a".toList = true) := ⟨rfl, rfl⟩

/-- C4 witness: the amended theorem applied to the concrete two-record
batch. -/
theorem add_scenes_batch_partial_witness :
    ((add_scenes_from_json_list ⟨[]⟩ [c4GoodRecord]).2 = .ok [c4NodeA]) ∧
    ((add_scene_from_dict (add_scenes_from_json_list ⟨[]⟩ [c4GoodRecord]).1 c4BadRecord).2
       = .error .keyError) ∧
    (add_scenes_from_json_list ⟨[]⟩ ([c4GoodRecord] ++ c4BadRecord :: []) =
       ((add_scenes_from_json_list ⟨[]⟩ [c4GoodRecord]).1, .error .keyError) ∧
     (∀ d ∈ [c4GoodRecord], ∀ i, d.id = some i →
       alistContains ((add_scenes_from_json_list ⟨[]⟩ [c4GoodRecord]).1).nodes i = true)) :=
  ⟨rfl, rfl,
   add_scenes_batch_partial ⟨[]⟩ [c4GoodRecord] c4BadRecord [] [c4NodeA] .keyError rfl rfl⟩


/-! ## Claim C5: transitions to ids absent from the graph -/

theorem append_tail_exists {α : Type} (old : List α) (u : α) (l : List α) :
    ∃ tail, (old ++ [u]) ++ l = old ++ u :: tail := ⟨l, by simp⟩

/-- C5 amended: a `transition_to_id` absent from the story graph is silently
ignored: no `InvalidTransitionError` exists or is raised (the turn completes
normally), `currentNodeId` keeps its prior value and no entered-scene entry
is appended — but the session is not left unchanged: the per-node turn
counter still increments and the turn's chat-history entries are still
appended. -/
theorem process_turn_invalid_target (session : Session)
    (nodes : List (List Char × NodeRecord)) (mechanics_logs : List (List Char))
    (raw : RawDecision) (player_input : List Char)
    (player : Player) (restP : List Player) (t : List Char)
    (hp : session.players = player :: restP)
    (ht : raw.transition_to_id = some t)
    (habs : alistLookup nodes t = none) :
    ∃ s1 dm, process_turn session nodes mechanics_logs raw player_input = .ok (s1, dm) ∧
      s1.current_node_id = session.current_node_id ∧
      s1.current_node_turns = session.current_node_turns + 1 ∧
      dm.active_mode = none ∧
      dm.transition_to_id = some t ∧
      (∃ tail, s1.chat_history =
        session.chat_history ++ ("user".toList, player_input) :: tail) := by
  unfold process_turn
  rw [hp]
  dsimp only
  rw [ht]
  dsimp only
  have hnone : (if !t.isEmpty then (alistLookup nodes t).map (fun n => (t, n)) else none)
      = (none : Option (List Char × NodeRecord)) := by
    by_cases hte : t.isEmpty
    · simp [hte]
    · simp [hte, habs]
  rw [hnone]
  dsimp only
  refine ⟨_, _, rfl, rfl, rfl, rfl, ht.symm ▸ rfl, ?_⟩
  by_cases hml : truthyOptStr (if !mechanics_logs.isEmpty then
      match raw.mechanics_log with
      | some ml => if !ml.isEmpty then some (ml ++ "\n[Verified]:\n".toList ++ joinNl mechanics_logs)
                   else some (joinNl mechanics_logs)
      | none => some (joinNl mechanics_logs)
    else raw.mechanics_log)
  · rw [if_pos hml]
    rw [List.append_assoc]
    exact append_tail_exists _ _ _
  · rw [if_neg hml]
    exact append_tail_exists _ _ _

/-- C5 counterexample: with target id `"nowhere"` absent from the graph the
turn returns a normal `DMResponse` (no error of any kind), `currentNodeId`
stays `"n1"`, but the session is visibly mutated — the per-node turn counter
moves from 3 to 4 — contradicting "returns InvalidTransitionError and leaves
the session unchanged". -/
theorem process_turn_invalid_target_counterexample :
    (process_turn c5Session c5Nodes [] c5Raw "go".toList).map
        (fun p => (p.1.current_node_turns, p.1.current_node_id, p.2.active_mode)) =
      .ok (4, "n1".toList, none) := rfl

/-- C5 witness: the amended theorem applied to the concrete session. -/
theorem process_turn_invalid_target_witness :
    (c5Session.players = c5Player :: []) ∧
    (c5Raw.transition_to_id = some "nowhere".toList) ∧
    (alistLookup c5Nodes "nowhere".toList = none) ∧
    (∃ s1 dm, process_turn c5Session c5Nodes [] c5Raw "go".toList = .ok (s1, dm) ∧
      s1.current_node_id = c5Session.current_node_id ∧
      s1.current_node_turns = c5Session.current_node_turns + 1 ∧
      dm.active_mode = none ∧
      dm.transition_to_id = some "nowhere".toList ∧
      (∃ tail, s1.chat_history =
        c5Session.chat_history ++ ("user".toList, "go".toList) :: tail)) :=
  ⟨rfl, rfl, rfl,
   process_turn_invalid_target c5Session c5Nodes [] c5Raw "go".toList c5Player []
     "nowhere".toList rfl rfl rfl⟩


/-! ## Round Pipeline lemmas (claims C1 and C2) -/

/-- When the planner names a known attack of an `attack`/`cast_spell` kind
with damage dice, the player phase is exactly one `resolve_attack` call. -/
theorem player_attack_phase_attack (player : Player) (pa : PlayerActionPlan)
    (enemy_name : List Char) (enemy_ac : Int) (g : Rng)
    (nm : List Char) (atk : Attack) (rP : AttackResult) (g1 : Rng)
    (hkind : pa.kind = some "attack".toList ∨ pa.kind = some "cast_spell".toList)
    (hname : pa.attack_name = some nm)
    (hfound : alistLookup (build_player_attack_map player) nm = some atk)
    (hdice : atk.damage.isEmpty = false)
    (hrp : resolve_attack player.name (player.name ++ apostrophe :: "s attack".toList)
            atk.bonus enemy_name enemy_ac (atk.damage.filter (fun c => c ≠ ' ')) g
            = .ok (rP, g1)) :
    player_attack_phase player pa enemy_name enemy_ac g =
      .ok ((if rP.is_hit then rP.damage_dealt else 0), [rP.log], some rP, g1) := by
  unfold player_attack_phase
  rw [hname]
  dsimp only
  have hcond : (pa.kind.getD "other".toList = "attack".toList ∨
      pa.kind.getD "other".toList = "cast_spell".toList) := by
    rcases hkind with hk | hk <;> rw [hk] <;> simp
  rw [if_pos hcond, hfound]
  dsimp only
  rw [if_pos (by simp [hdice])]
  unfold run_attack_and_log
  dsimp only
  rw [hrp]

/-- When the selection picks an enemy action with a bonus and damage dice,
the enemy phase is exactly one `resolve_attack` call. -/
theorem enemy_attack_phase_attack (player : Player) (ea : EnemyActionPlan)
    (enemy_name : List Char) (acts : List MonsterActionRecord)
    (g : Rng) (d : MonsterActionRecord) (be : Int) (dde : List Char)
    (rE : AttackResult) (g1 : Rng)
    (hsel : select_enemy_attack ea acts = some d)
    (hbe : d.attack_bonus = some be)
    (hdde : d.damage_dice = some dde)
    (hddne : dde.isEmpty = false)
    (hre : resolve_attack enemy_name (enemy_name ++ apostrophe :: "s attack".toList)
            be player.name player.character_sheet.ac (dde.filter (fun c => c ≠ ' ')) g
            = .ok (rE, g1)) :
    enemy_attack_phase player ea enemy_name acts g =
      .ok ((if rE.is_hit then rE.damage_dealt else 0), [rE.log], some rE, g1) := by
  unfold enemy_attack_phase
  rw [hsel]
  dsimp only
  rw [hbe, hdde]
  dsimp only
  rw [if_pos (by simp [hddne])]
  unfold run_attack_and_log
  dsimp only
  rw [hre]

/-- Symbolic execution of a full round in which the enemy is alive at entry
and both attack phases complete. -/
theorem process_fight_round_run
    (session : Session) (node : NodeRecord) (plan : FightPlan)
    (narrate : RoundSummary → List Char) (input : List Char) (g : Rng)
    (player : Player) (restP : List Player)
    (te : FightEntity) (restE : List FightEntity)
    (dP : Int) (logsP : List (List Char)) (prP : Option AttackResult) (g1 : Rng)
    (dE : Int) (logsE : List (List Char)) (prE : Option AttackResult) (g2 : Rng)
    (hp : session.players = player :: restP)
    (hent : (node.entities.getD []).filter (fun e => e.etype = some "monster".toList)
              = te :: restE)
    (hlive : (alistLookup session.enemy_states (te.name.getD "Enemy".toList)).getD 0
              < (te.stats.getD emptyEnemyStats).hp_max.getD 30)
    (hpp : player_attack_phase player (plan.player_action.getD emptyPlayerActionPlan)
             (te.name.getD "Enemy".toList) ((te.stats.getD emptyEnemyStats).ac.getD 12) g
             = .ok (dP, logsP, prP, g1))
    (hep : enemy_attack_phase player (plan.enemy_action.getD emptyEnemyActionPlan)
             (te.name.getD "Enemy".toList)
             ((te.stats.getD emptyEnemyStats).actions.getD []) g1
             = .ok (dE, logsE, prE, g2)) :
    process_fight_round session node plan narrate input g =
      .ok ((commit_round session player restP (te.name.getD "Enemy".toList)
        ((te.stats.getD emptyEnemyStats).hp_max.getD 30)
        ((alistLookup session.enemy_states (te.name.getD "Enemy".toList)).getD 0)
        (max 0 ((te.stats.getD emptyEnemyStats).hp_max.getD 30
          - (alistLookup session.enemy_states (te.name.getD "Enemy".toList)).getD 0))
        (plan.player_action.getD emptyPlayerActionPlan)
        (plan.enemy_action.getD emptyEnemyActionPlan)
        (plan.combat_state.getD emptyCombatStatePlan)
        dP dE logsP logsE prP prE narrate input).1, (commit_round session player restP (te.name.getD "Enemy".toList)
        ((te.stats.getD emptyEnemyStats).hp_max.getD 30)
        ((alistLookup session.enemy_states (te.name.getD "Enemy".toList)).getD 0)
        (max 0 ((te.stats.getD emptyEnemyStats).hp_max.getD 30
          - (alistLookup session.enemy_states (te.name.getD "Enemy".toList)).getD 0))
        (plan.player_action.getD emptyPlayerActionPlan)
        (plan.enemy_action.getD emptyEnemyActionPlan)
        (plan.combat_state.getD emptyCombatStatePlan)
        dP dE logsP logsE prP prE narrate input).2, g2) := by
  unfold process_fight_round
  rw [hp]
  dsimp only
  rw [hent]
  dsimp only
  rw [if_neg (by omega)]
  rw [hpp]
  dsimp only
  rw [hep]


/-! ## Claim C1: resolver order within a round -/

/-- C1 amended: when the plan names a known player attack and a usable enemy
action, the Combat Resolver runs first for the player's attack (consuming
the random source first) and then for the enemy's attack (from the state the
player's roll left), in that fixed order, accumulating the two logs in
order — regardless of whether the player's attack already reduced the enemy
to 0 HP; the enemy's survival is only checked before the round starts. -/
theorem process_fight_round_resolve_order
    (session : Session) (node : NodeRecord) (plan : FightPlan)
    (narrate : RoundSummary → List Char) (input : List Char) (g : Rng)
    (player : Player) (restP : List Player)
    (te : FightEntity) (restE : List FightEntity)
    (nm : List Char) (atk : Attack) (rP : AttackResult) (g1 : Rng)
    (d : MonsterActionRecord) (be : Int) (dde : List Char)
    (rE : AttackResult) (g2 : Rng)
    (hp : session.players = player :: restP)
    (hent : (node.entities.getD []).filter (fun e => e.etype = some "monster".toList)
              = te :: restE)
    (hlive : (alistLookup session.enemy_states (te.name.getD "Enemy".toList)).getD 0
              < (te.stats.getD emptyEnemyStats).hp_max.getD 30)
    (hkind : (plan.player_action.getD emptyPlayerActionPlan).kind = some "attack".toList ∨
             (plan.player_action.getD emptyPlayerActionPlan).kind = some "cast_spell".toList)
    (hname : (plan.player_action.getD emptyPlayerActionPlan).attack_name = some nm)
    (hfound : alistLookup (build_player_attack_map player) nm = some atk)
    (hdice : atk.damage.isEmpty = false)
    (hrp : resolve_attack player.name (player.name ++ apostrophe :: "s attack".toList)
            atk.bonus (te.name.getD "Enemy".toList)
            ((te.stats.getD emptyEnemyStats).ac.getD 12)
            (atk.damage.filter (fun c => c ≠ ' ')) g = .ok (rP, g1))
    (hsel : select_enemy_attack (plan.enemy_action.getD emptyEnemyActionPlan)
            ((te.stats.getD emptyEnemyStats).actions.getD []) = some d)
    (hbe : d.attack_bonus = some be)
    (hdde : d.damage_dice = some dde)
    (hddne : dde.isEmpty = false)
    (hre : resolve_attack (te.name.getD "Enemy".toList)
            ((te.name.getD "Enemy".toList) ++ apostrophe :: "s attack".toList) be
            player.name player.character_sheet.ac
            (dde.filter (fun c => c ≠ ' ')) g1 = .ok (rE, g2)) :
    ∃ sOut dmOut,
      process_fight_round session node plan narrate input g = .ok (sOut, dmOut, g2) ∧
      dmOut.mechanics_log = some (joinNl [rP.log, rE.log]) ∧
      dmOut.damage_taken = (if rE.is_hit then rE.damage_dealt else 0) ∧
      sOut.enemy_states =
        (if (if rP.is_hit then rP.damage_dealt else 0) > 0 then
           alistInsert session.enemy_states (te.name.getD "Enemy".toList)
             ((alistLookup session.enemy_states (te.name.getD "Enemy".toList)).getD 0 +
              (if rP.is_hit then rP.damage_dealt else 0))
         else session.enemy_states) := by
  have hpp := player_attack_phase_attack player (plan.player_action.getD emptyPlayerActionPlan)
    (te.name.getD "Enemy".toList) ((te.stats.getD emptyEnemyStats).ac.getD 12) g
    nm atk rP g1 hkind hname hfound hdice hrp
  have hep := enemy_attack_phase_attack player (plan.enemy_action.getD emptyEnemyActionPlan)
    (te.name.getD "Enemy".toList) ((te.stats.getD emptyEnemyStats).actions.getD []) g1
    d be dde rE g2 hsel hbe hdde hddne hre
  have hrun := process_fight_round_run session node plan narrate input g player restP te restE
    _ _ _ g1 _ _ _ g2 hp hent hlive hpp hep
  refine ⟨_, _, hrun, rfl, rfl, ?_⟩
  unfold commit_round
  dsimp only
  by_cases hdp : (if rP.is_hit then rP.damage_dealt else 0) > 0
  · rw [if_pos hdp, if_pos hdp]
  · rw [if_neg hdp, if_neg hdp]


/-- C1 counterexample: the player's crit deals 8 damage to the 5-HP enemy
(cumulative damage 8 ≥ max HP 5, so the enemy is dead as soon as the
player's attack is applied and the round reports `action`), yet the enemy's
attack is still resolved and deals 3 damage to the player in the same round
— the Resolver is invoked for the enemy's attack although the enemy did not
survive the player's attack. -/
theorem process_fight_round_dead_enemy_attacks_counterexample :
    (process_fight_round c1Session c1Node c1Plan c1Narr "I strike".toList c1Rng).map
        (fun t => (t.2.1.damage_taken,
                   (alistLookup t.1.enemy_states "Merrow".toList).getD 0,
                   t.2.1.active_mode)) =
      .ok (3, 8, some "action".toList) := rfl

/-- C1 witness: the amended order theorem applied to the concrete round. -/
theorem process_fight_round_resolve_order_witness :
    (c1Session.players = c1Player :: []) ∧
    (resolve_attack c1Player.name (c1Player.name ++ apostrophe :: "s attack".toList)
      c1Attack.bonus (c1Entity.name.getD "Enemy".toList)
      ((c1Entity.stats.getD emptyEnemyStats).ac.getD 12)
      (c1Attack.damage.filter (fun c => c ≠ ' ')) c1Rng = .ok (c1RP, c1G1)) ∧
    (resolve_attack (c1Entity.name.getD "Enemy".toList)
      ((c1Entity.name.getD "Enemy".toList) ++ apostrophe :: "s attack".toList) 4
      c1Player.name c1Player.character_sheet.ac
      ("1d6".toList.filter (fun c => c ≠ ' ')) c1G1 = .ok (c1RE, c1G2)) ∧
    (∃ sOut dmOut,
      process_fight_round c1Session c1Node c1Plan c1Narr "I strike".toList c1Rng
        = .ok (sOut, dmOut, c1G2) ∧
      dmOut.mechanics_log = some (joinNl [c1RP.log, c1RE.log]) ∧
      dmOut.damage_taken = (if c1RE.is_hit then c1RE.damage_dealt else 0) ∧
      sOut.enemy_states =
        (if (if c1RP.is_hit then c1RP.damage_dealt else 0) > 0 then
           alistInsert c1Session.enemy_states (c1Entity.name.getD "Enemy".toList)
             ((alistLookup c1Session.enemy_states (c1Entity.name.getD "Enemy".toList)).getD 0 +
              (if c1RP.is_hit then c1RP.damage_dealt else 0))
         else c1Session.enemy_states)) :=
  ⟨rfl, rfl, rfl,
   process_fight_round_resolve_order c1Session c1Node c1Plan c1Narr "I strike".toList c1Rng
     c1Player [] c1Entity [] "Sword".toList c1Attack c1RP c1G1 c1EnemyAction 4 "1d6".toList
     c1RE c1G2 rfl rfl (by decide) (Or.inl rfl) rfl rfl rfl rfl rfl rfl rfl rfl rfl⟩


/-! ## Claim C2: enemy HP derived from the cumulative damage map -/

/-- C2: enemy current HP is never stored: the session keeps only the
per-enemy cumulative damage, the round derives HP as
`max 0 (max_hp - cumulative damage)`, a round that deals damage stores only
the increased cumulative total under the enemy's name, the end state reports
the enemy dead (mode signal `action` instead of `fight`) exactly when the
derived HP clamps to 0 (or the player died or the planner declared an
accepted end), and a later request on a session whose stored cumulative
damage already reaches max HP short-circuits to the "already defeated"
answer without touching the damage map. -/
theorem process_fight_round_derived_enemy_hp
    (session : Session) (node : NodeRecord) (plan : FightPlan)
    (narrate : RoundSummary → List Char) (input : List Char) (g : Rng)
    (player : Player) (restP : List Player)
    (te : FightEntity) (restE : List FightEntity)
    (dP : Int) (logsP : List (List Char)) (prP : Option AttackResult) (g1 : Rng)
    (dE : Int) (logsE : List (List Char)) (prE : Option AttackResult) (g2 : Rng)
    (hp : session.players = player :: restP)
    (hent : (node.entities.getD []).filter (fun e => e.etype = some "monster".toList)
              = te :: restE)
    (hlive : ((alistLookup session.enemy_states (te.name.getD "Enemy".toList)).getD 0) < ((te.stats.getD emptyEnemyStats).hp_max.getD 30))
    (hpp : player_attack_phase player (plan.player_action.getD emptyPlayerActionPlan)
             (te.name.getD "Enemy".toList) ((te.stats.getD emptyEnemyStats).ac.getD 12) g
             = .ok (dP, logsP, prP, g1))
    (hep : enemy_attack_phase player (plan.enemy_action.getD emptyEnemyActionPlan)
             (te.name.getD "Enemy".toList) ((te.stats.getD emptyEnemyStats).actions.getD []) g1
             = .ok (dE, logsE, prE, g2)) :
    (∃ sOut dmOut,
      process_fight_round session node plan narrate input g = .ok (sOut, dmOut, g2) ∧
      (alistLookup sOut.enemy_states (te.name.getD "Enemy".toList)).getD 0 =
        (if dP > 0 then ((alistLookup session.enemy_states (te.name.getD "Enemy".toList)).getD 0) + dP else ((alistLookup session.enemy_states (te.name.getD "Enemy".toList)).getD 0)) ∧
      (dmOut.active_mode = some "action".toList ↔
        (max 0 (((te.stats.getD emptyEnemyStats).hp_max.getD 30) - (if dP > 0 then ((alistLookup session.enemy_states (te.name.getD "Enemy".toList)).getD 0) + dP else ((alistLookup session.enemy_states (te.name.getD "Enemy".toList)).getD 0))) ≤ 0 ∨
         (if dE > 0 then max 0 (player.current_hp - dE) else player.current_hp) ≤ 0 ∨
         ((plan.combat_state.getD emptyCombatStatePlan).should_end = some true ∧
          endReasonAccepted (plan.combat_state.getD emptyCombatStatePlan).end_reason
            = true)))) ∧
    (∀ (session2 : Session) (g0 : Rng),
      session2.players = player :: restP →
      ((te.stats.getD emptyEnemyStats).hp_max.getD 30) ≤ (alistLookup session2.enemy_states (te.name.getD "Enemy".toList)).getD 0 →
      ∃ s2 dm2, process_fight_round session2 node plan narrate input g0
          = .ok (s2, dm2, g0) ∧
        dm2.active_mode = some "action".toList ∧
        s2.enemy_states = session2.enemy_states) := by
  constructor
  · have hrun := process_fight_round_run session node plan narrate input g player restP
      te restE dP logsP prP g1 dE logsE prE g2 hp hent hlive hpp hep
    refine ⟨_, _, hrun, ?_, ?_⟩
    · unfold commit_round
      dsimp only
      by_cases hdp : dP > 0
      · rw [if_pos hdp, if_pos hdp]
        dsimp only
        rw [alistLookup_insert]
        rfl
      · rw [if_neg hdp, if_neg hdp]
    · unfold commit_round
      dsimp only
      constructor
      · intro hmode
        by_contra hns
        push_neg at hns
        obtain ⟨h1, h2, h3⟩ := hns
        have hed : decide ((if dP > 0 then
            (alistInsert session.enemy_states (te.name.getD "Enemy".toList) (((alistLookup session.enemy_states (te.name.getD "Enemy".toList)).getD 0) + dP),
              max 0 (((te.stats.getD emptyEnemyStats).hp_max.getD 30) - (((alistLookup session.enemy_states (te.name.getD "Enemy".toList)).getD 0) + dP)))
          else (session.enemy_states, max 0 (((te.stats.getD emptyEnemyStats).hp_max.getD 30) - ((alistLookup session.enemy_states (te.name.getD "Enemy".toList)).getD 0)))).2 ≤ (0 : Int)) = false := by
          rw [decide_eq_false_iff_not]
          by_cases hdp : dP > 0
          · rw [if_pos hdp]
            rw [if_pos hdp] at h1
            dsimp only
            omega
          · rw [if_neg hdp]
            rw [if_neg hdp] at h1
            dsimp only
            omega
        have hpd : decide ((if dE > 0 then
            { player with current_hp := max 0 (player.current_hp - dE) }
          else player).current_hp ≤ (0 : Int)) = false := by
          rw [decide_eq_false_iff_not]
          by_cases hde : dE > 0
          · rw [if_pos hde]
            rw [if_pos hde] at h2
            dsimp only
            omega
          · rw [if_neg hde]
            rw [if_neg hde] at h2
            omega
        have hex : decide ((plan.combat_state.getD emptyCombatStatePlan).should_end
              = some true ∧
            endReasonAccepted (plan.combat_state.getD emptyCombatStatePlan).end_reason
              = true) = false := by
          rw [decide_eq_false_iff_not]
          intro hc
          exact h3 hc.1 hc.2
        rw [hed, hpd, hex] at hmode
        simp at hmode
      · intro hdis
        have hro : (decide ((if dP > 0 then
            (alistInsert session.enemy_states (te.name.getD "Enemy".toList) (((alistLookup session.enemy_states (te.name.getD "Enemy".toList)).getD 0) + dP),
              max 0 (((te.stats.getD emptyEnemyStats).hp_max.getD 30) - (((alistLookup session.enemy_states (te.name.getD "Enemy".toList)).getD 0) + dP)))
          else (session.enemy_states, max 0 (((te.stats.getD emptyEnemyStats).hp_max.getD 30) - ((alistLookup session.enemy_states (te.name.getD "Enemy".toList)).getD 0)))).2 ≤ (0 : Int)) ||
          decide ((if dE > 0 then
            { player with current_hp := max 0 (player.current_hp - dE) }
          else player).current_hp ≤ (0 : Int)) ||
          decide ((plan.combat_state.getD emptyCombatStatePlan).should_end = some true ∧
            endReasonAccepted (plan.combat_state.getD emptyCombatStatePlan).end_reason
              = true)) = true := by
          rcases hdis with h1 | h2 | h3
          · apply Bool.or_eq_true_iff.mpr
            left
            apply Bool.or_eq_true_iff.mpr
            left
            rw [decide_eq_true_eq]
            by_cases hdp : dP > 0
            · rw [if_pos hdp]
              rw [if_pos hdp] at h1
              exact h1
            · rw [if_neg hdp]
              rw [if_neg hdp] at h1
              exact h1
          · apply Bool.or_eq_true_iff.mpr
            left
            apply Bool.or_eq_true_iff.mpr
            right
            rw [decide_eq_true_eq]
            by_cases hde : dE > 0
            · rw [if_pos hde]
              rw [if_pos hde] at h2
              exact h2
            · rw [if_neg hde]
              rw [if_neg hde] at h2
              exact h2
          · apply Bool.or_eq_true_iff.mpr
            right
            rw [decide_eq_true_eq]
            exact h3
        rw [hro]
        rfl
  · intro session2 g0 hp2 hdead
    unfold process_fight_round
    rw [hp2]
    dsimp only
    rw [hent]
    dsimp only
    rw [if_pos (by omega)]
    exact ⟨_, _, rfl, rfl, rfl⟩


/-- C2 witness: round 2 of the spec scenario (max HP 30, 18 damage stored
from round 1, this round deals 15): the stored cumulative damage becomes 33,
the derived HP clamps to 0 and the round reports `action`. -/
theorem process_fight_round_derived_enemy_hp_witness :
    (c2Session.players = c2Player :: []) ∧
    (((alistLookup c2Session.enemy_states (c2Entity.name.getD "Enemy".toList)).getD 0) < ((c2Entity.stats.getD emptyEnemyStats).hp_max.getD 30)) ∧
    (player_attack_phase c2Player (c2Plan.player_action.getD emptyPlayerActionPlan)
       (c2Entity.name.getD "Enemy".toList) ((c2Entity.stats.getD emptyEnemyStats).ac.getD 12) c2Rng
       = .ok ((if c2RP.is_hit then c2RP.damage_dealt else 0), [c2RP.log], some c2RP, c2G1)) ∧
    ((∃ sOut dmOut,
      process_fight_round c2Session c2Node c2Plan c1Narr "strike".toList c2Rng
        = .ok (sOut, dmOut, c2G1) ∧
      (alistLookup sOut.enemy_states (c2Entity.name.getD "Enemy".toList)).getD 0 =
        (if (if c2RP.is_hit then c2RP.damage_dealt else 0) > 0 then ((alistLookup c2Session.enemy_states (c2Entity.name.getD "Enemy".toList)).getD 0) + (if c2RP.is_hit then c2RP.damage_dealt else 0) else ((alistLookup c2Session.enemy_states (c2Entity.name.getD "Enemy".toList)).getD 0)) ∧
      (dmOut.active_mode = some "action".toList ↔
        (max 0 (((c2Entity.stats.getD emptyEnemyStats).hp_max.getD 30) - (if (if c2RP.is_hit then c2RP.damage_dealt else 0) > 0 then ((alistLookup c2Session.enemy_states (c2Entity.name.getD "Enemy".toList)).getD 0) + (if c2RP.is_hit then c2RP.damage_dealt else 0) else ((alistLookup c2Session.enemy_states (c2Entity.name.getD "Enemy".toList)).getD 0))) ≤ 0 ∨
         (if (0 : Int) > 0 then max 0 (c2Player.current_hp - 0) else c2Player.current_hp)
            ≤ 0 ∨
         ((c2Plan.combat_state.getD emptyCombatStatePlan).should_end = some true ∧
          endReasonAccepted (c2Plan.combat_state.getD emptyCombatStatePlan).end_reason
            = true)))) ∧
     (∀ (session2 : Session) (g0 : Rng),
      session2.players = c2Player :: [] →
      ((c2Entity.stats.getD emptyEnemyStats).hp_max.getD 30) ≤ (alistLookup session2.enemy_states (c2Entity.name.getD "Enemy".toList)).getD 0 →
      ∃ s2 dm2, process_fight_round session2 c2Node c2Plan c1Narr "strike".toList g0
          = .ok (s2, dm2, g0) ∧
        dm2.active_mode = some "action".toList ∧
        s2.enemy_states = session2.enemy_states)) :=
  ⟨rfl, by decide, rfl,
   process_fight_round_derived_enemy_hp c2Session c2Node c2Plan c1Narr "strike".toList c2Rng
     c2Player [] c2Entity [] (if c2RP.is_hit then c2RP.damage_dealt else 0) [c2RP.log] (some c2RP) c2G1 0 [] none c2G1
     rfl rfl (by decide) rfl rfl⟩

end AIDM
